import Mathlib

/-!
Verification development for the antigravity-claude-proxy request dispatch
engine. The JavaScript sources under `src/` are shallowly embedded as
executable Lean definitions: pure helpers become Lean functions, the stateful
dispatch loops of `message-handler.js` and `streaming-handler.js` become
explicit state-passing functions driven by an oracle of upstream fetch
results, and millisecond instants are naturals. Components of the repository
that are not part of the provided sources (the account manager, the rate
limit parser, the SSE stream adapter, the Anthropic-to-Google codec and the
error classifiers) are modelled from the specification; each such definition
carries a doc comment saying so.
-/

namespace Antigravity

/-! ## String helpers

JavaScript `toLowerCase` and `includes` are modelled on `List Char`.
Lowercasing is the ASCII lowering of `Char.toLower`; the model names that
appear in the sources are ASCII. -/

/-- Lowercase a character list, modelling `String.prototype.toLowerCase` on
ASCII input. -/
def lowerStr (s : List Char) : List Char := s.map Char.toLower

/-- Containment of `needle` in `hay`, modelling `String.prototype.includes`. -/
def containsSub (hay needle : List Char) : Bool :=
  match hay with
  | [] => needle.isEmpty
  | _ :: t => needle.isPrefixOf hay || containsSub t needle

/-- Numeric value of a digit run, modelling `parseInt(run, 10)`. -/
def digitsVal (ds : List Char) : Nat :=
  ds.foldl (fun acc c => 10 * acc + (c.toNat - '0'.toNat)) 0

/-! ## Constants (`src/constants.js`) -/

def DEFAULT_COOLDOWN_MS : Nat := 10 * 1000
def MAX_RETRIES : Nat := 5
def MAX_EMPTY_RESPONSE_RETRIES : Nat := 2
def MAX_WAIT_BEFORE_ERROR_MS : Nat := 120000
def GEMINI_MAX_OUTPUT_TOKENS : Nat := 16384

/-- Endpoint fallback order (daily, then prod), from `src/constants.js`. -/
def ANTIGRAVITY_ENDPOINT_FALLBACKS : List String :=
  ["https://daily-cloudcode-pa.googleapis.com", "https://cloudcode-pa.googleapis.com"]

/-- Model fallback mapping from `src/constants.js` (`MODEL_FALLBACK_MAP`). -/
def MODEL_FALLBACK_MAP : List (String × String) :=
  [("gemini-3-pro-high", "claude-opus-4-5-thinking"),
   ("gemini-3-pro-low", "claude-sonnet-4-5"),
   ("gemini-3-flash", "claude-sonnet-4-5-thinking"),
   ("claude-opus-4-5-thinking", "gemini-3-pro-high"),
   ("claude-sonnet-4-5-thinking", "gemini-3-flash"),
   ("claude-sonnet-4-5", "gemini-3-flash")]

/-- Modelled from the spec: `getFallbackModel` of `src/fallback-config.js` is
not in the provided sources; the spec describes it as lookup in the static
mapping `MODEL_FALLBACK_MAP` (which is in `src/constants.js`). -/
def getFallbackModel (model : String) : Option String :=
  MODEL_FALLBACK_MAP.lookup model

/-! ## `isThinkingModel` (`src/constants.js`)

The JavaScript takes a possibly absent model name (`(modelName || '')`), so
the Lean version takes an `Option String`. The version probe embeds the
regular expression `/gemini-(\d+)/`: the first position at which the literal
`gemini-` is followed by at least one digit yields the maximal digit run at
that position. -/

/-- First match of `gemini-` followed by a digit run, scanning left to right;
returns the numeric value of the run of the first match, as
`lower.match(...)` followed by `parseInt` does. -/
def firstGeminiNum (l : List Char) : Option Nat :=
  match l with
  | [] => none
  | _ :: t =>
    let pat := ['g', 'e', 'm', 'i', 'n', 'i', '-']
    if pat.isPrefixOf l then
      let ds := (l.drop 7).takeWhile Char.isDigit
      if ds.isEmpty then firstGeminiNum t else some (digitsVal ds)
    else firstGeminiNum t

/-- Translation of `isThinkingModel` from `src/constants.js`. -/
def isThinkingModel (modelName : Option String) : Bool :=
  let lower := lowerStr (modelName.getD "").data
  if containsSub lower "claude".data && containsSub lower "thinking".data then
    true
  else if containsSub lower "gemini".data then
    if containsSub lower "thinking".data then true
    else
      match firstGeminiNum lower with
      | some n => decide (3 ≤ n)
      | none => false
  else false

/-- Translation of `getModelFamily` from `src/constants.js`. -/
def getModelFamily (modelName : Option String) : String :=
  let lower := lowerStr (modelName.getD "").data
  if containsSub lower "claude".data then "claude"
  else if containsSub lower "gemini".data then "gemini"
  else "unknown"

/-- Restatement of claim C10 as a flat boolean formula over the same
primitives: lowercase name contains both `claude` and `thinking`, or contains
`gemini` and either contains `thinking` or its first `gemini-N` match has
`N ≥ 3`. -/
def isThinkingModelClaim (modelName : Option String) : Bool :=
  let lower := lowerStr (modelName.getD "").data
  (containsSub lower "claude".data && containsSub lower "thinking".data) ||
  (containsSub lower "gemini".data &&
    (containsSub lower "thinking".data ||
      (match firstGeminiNum lower with
       | some n => decide (3 ≤ n)
       | none => false)))

end Antigravity

namespace Antigravity

/-! ## Identity preamble (`ANTIGRAVITY_SYSTEM_INSTRUCTION`, `src/constants.js`)

The fixed multi-section system block, transcribed verbatim from the template
literal in the source (backticks, apostrophes, tabs and braces appear as hex
escapes). -/

/-- The Antigravity identity preamble from `src/constants.js`. -/
def ANTIGRAVITY_SYSTEM_INSTRUCTION : String :=
  "<identity>\nYou are Antigravity, a powerful agentic AI coding assistant designed by the Google Deepmind team working on Advanced Agentic Coding.\nYou are pair programming with a USER to solve their coding task. The task may require creating a new codebase, modifying or debugging an existing codebase, or simply answering a question.\nThe USER will send you requests, which you must always prioritize addressing. Along with each USER request, we will attach additional metadata about their current state, such as what files they have open and where their cursor is.\nThis information may or may not be relevant to the coding task, it is up for you to decide.\n</identity>\n\n<tool_calling>\nCall tools as you normally would. The following list provides additional guidance to help you avoid errors:\n - **Absolute paths only**. When using tools that accept file path arguments, ALWAYS use the absolute file path.\n</tool_calling>\n\n<web_application_development>\n## Technology Stack,\nYour web applications should be built using the following technologies:,\n1. **Core**: Use HTML for structure and Javascript for logic.\n2. **Styling (CSS)**: Use Vanilla CSS for maximum flexibility and control. Avoid using TailwindCSS unless the USER explicitly requests it; in this case, first confirm which TailwindCSS version to use.\n3. **Web App**: If the USER specifies that they want a more complex web app, use a framework like Next.js or Vite. Only do this if the USER explicitly requests a web app.\n4. **New Project Creation**: If you need to use a framework for a new app, use \x60npx\x60 with the appropriate script, but there are some rules to follow:,\n - Use \x60npx -y\x60 to automatically install the script and its dependencies\n - You MUST run the command with \x60--help\x60 flag to see all available options first, \n - Initialize the app in the current directory with \x60./\x60 (example: \x60npx -y create-vite-app@latest ./\x60),\n - You should run in non-interactive mode so that the user doesn\x27t need to input anything,\n5. **Running Locally**: When running locally, use \x60npm run dev\x60 or equivalent dev server. Only build the production bundle if the USER explicitly requests it or you are validating the code for correctness.\n\n# Design Aesthetics,\n1. **Use Rich Aesthetics**: The USER should be wowed at first glance by the design. Use best practices in modern web design (e.g. vibrant colors, dark modes, glassmorphism, and dynamic animations) to create a stunning first impression. Failure to do this is UNACCEPTABLE.\n2. **Prioritize Visual Excellence**: Implement designs that will WOW the user and feel extremely premium:\n\t\t- Avoid generic colors (plain red, blue, green). Use curated, harmonious color palettes (e.g., HSL tailored colors, sleek dark modes).\n - Using modern typography (e.g., from Google Fonts like Inter, Roboto, or Outfit) instead of browser defaults.\n\t\t- Use smooth gradients,\n\t\t- Add subtle micro-animations for enhanced user experience,\n3. **Use a Dynamic Design**: An interface that feels responsive and alive encourages interaction. Achieve this with hover effects and interactive elements. Micro-animations, in particular, are highly effective for improving user engagement.\n4. **Premium Designs**. Make a design that feels premium and state of the art. Avoid creating simple minimum viable products.\n4. **Don\x27t use placeholders**. If you need an image, use your generate_image tool to create a working demonstration.,\n\n## Implementation Workflow,\nFollow this systematic approach when building web applications:,\n1. **Plan and Understand**:,\n\t\t- Fully understand the user\x27s requirements,\n\t\t- Draw inspiration from modern, beautiful, and dynamic web designs,\n\t\t- Outline the features needed for the initial version,\n2. **Build the Foundation**:,\n\t\t- Start by creating/modifying \x60index.css\x60,\n\t\t- Implement the core design system with all tokens and utilities,\n3. **Create Components**:,\n\t\t- Build necessary components using your design system,\n\t\t- Ensure all components use predefined styles, not ad-hoc utilities,\n\t\t- Keep components focused and reusable,\n4. **Assemble Pages**:,\n\t\t- Update the main application to incorporate your design and components,\n\t\t- Ensure proper routing and navigation,\n\t\t- Implement responsive layouts,\n5. **Polish and Optimize**:,\n\t\t- Review the overall user experience,\n\t\t- Ensure smooth interactions and transitions,\n\t\t- Optimize performance where needed,\n\n## SEO Best Practices,\nAutomatically implement SEO best practices on every page:,\n- **Title Tags**: Include proper, descriptive title tags for each page,\n- **Meta Descriptions**: Add compelling meta descriptions that accurately summarize page content,\n- **Heading Structure**: Use a single \x60<h1>\x60 per page with proper heading hierarchy,\n- **Semantic HTML**: Use appropriate HTML5 semantic elements,\n- **Unique IDs**: Ensure all interactive elements have unique, descriptive IDs for browser testing,\n- **Performance**: Ensure fast page load times through optimization,\nCRITICAL REMINDER: AESTHETICS ARE VERY IMPORTANT. If your web app looks simple and basic then you have FAILED!\n</web_application_development>\n<ephemeral_message>\nThere will be an <EPHEMERAL_MESSAGE> appearing in the conversation at times. This is not coming from the user, but instead injected by the system as important information to pay attention to. \nDo not respond to nor acknowledge those messages, but do follow them strictly.\n</ephemeral_message>\n\n\n<communication_style>\n- **Formatting**. Format your responses in github-style markdown to make your responses easier for the USER to parse. For example, use headers to organize your responses and bolded or italicized text to highlight important keywords. Use backticks to format file, directory, function, and class names. If providing a URL to the user, format this in markdown as well, for example \x60[label](example.com)\x60.\n- **Proactiveness**. As an agent, you are allowed to be proactive, but only in the course of completing the user\x27s task. For example, if the user asks you to add a new component, you can edit the code, verify build and test statuses, and take any other obvious follow-up actions, such as performing additional research. However, avoid surprising the user. For example, if the user asks HOW to approach something, you should answer their question and instead of jumping into editing a file.\n- **Helpfulness**. Respond like a helpful software engineer who is explaining your work to a friendly collaborator on the project. Acknowledge mistakes or any backtracking you do as a result of new information.\n- **Ask for clarification**. If you are unsure about the USER\x27s intent, always ask for clarification rather than making assumptions.\n</communication_style>"

end Antigravity

namespace Antigravity

/-! ## Request builder (`src/cloudcode/request-builder.js`)

Only the parts of the payload the claims speak about are carried: the
`systemInstruction` injection and the envelope constants. The session id
digest and the generation config are out of scope for the claims. -/

/-- A `parts` entry of a Google `systemInstruction`; a missing `text` field is
the empty string (the source reads `p.text || ''`). -/
structure SysPart where
  text : String
  deriving Repr, DecidableEq

/-- A Google `systemInstruction` object. -/
structure SystemInstruction where
  role : String
  parts : List SysPart
  deriving Repr, DecidableEq

/-- The slice of the converted Google request the claims need. -/
structure GoogleRequest where
  systemInstruction : Option SystemInstruction
  deriving Repr, DecidableEq

/-- The slice of the Anthropic request the request builder reads. -/
structure AnthropicRequest where
  model : String
  system : Option String
  deriving Repr, DecidableEq

/-- The Cloud Code envelope built by `buildCloudCodeRequest`. -/
structure CloudCodePayload where
  project : String
  model : String
  request : GoogleRequest
  userAgent : String
  requestType : String
  deriving Repr, DecidableEq

/-- Modelled from the spec: `convertAnthropicToGoogle` of `src/format/` is not
in the provided sources. Per the spec codec section, caller-supplied top-level
system text becomes a user-role `systemInstruction` whose parts carry that
text; a request without system text carries none. -/
def convertAnthropicToGoogle (req : AnthropicRequest) : GoogleRequest :=
  { systemInstruction :=
      match req.system with
      | some s => some { role := "user", parts := [{ text := s }] }
      | none => none }

/-- JavaScript `Array.prototype.join` with a newline separator. -/
def joinNl : List String → String
  | [] => ""
  | [s] => s
  | s :: rest => s ++ "\n" ++ joinNl rest

/-- JavaScript truthiness filter and join of the existing system text:
`parts.map(p => p.text || '').filter(t => t).join('\n')`. -/
def existingSystemText (si : Option SystemInstruction) : String :=
  match si with
  | some s => joinNl ((s.parts.map (·.text)).filter (· ≠ ""))
  | none => ""

/-- Translation of `buildCloudCodeRequest` from
`src/cloudcode/request-builder.js`: converts the request, then overwrites
`request.systemInstruction` with a single user-role part whose text is the
identity preamble, or the preamble, a blank line and the existing system
text. -/
def buildCloudCodeRequest (req : AnthropicRequest) (projectId : String) :
    CloudCodePayload :=
  let googleRequest := convertAnthropicToGoogle req
  let existing := existingSystemText googleRequest.systemInstruction
  let systemInstructionText :=
    if existing ≠ "" then ANTIGRAVITY_SYSTEM_INSTRUCTION ++ "\n\n" ++ existing
    else ANTIGRAVITY_SYSTEM_INSTRUCTION
  { project := projectId
    model := req.model
    request := { googleRequest with
                 systemInstruction :=
                   some { role := "user", parts := [{ text := systemInstructionText }] } }
    userAgent := "antigravity"
    requestType := "agent" }

end Antigravity

namespace Antigravity

/-! ## Kiro tool-input chunking (`src/kiro/event-stream.js`)

The `input_json_delta` branch of `streamAnthropicToKiro` re-emits an
already-complete JSON string in slices of eight characters. The loop
`for (i = 0; i < s.length; i += 8) push(s.slice(i, i + 8))` is embedded via a
fuel argument equal to the string length, so that the kernel can evaluate
it. -/

/-- The chunk size used by the tool-input re-emission loop. -/
def kiroChunkSize : Nat := 8

/-- Fuelled chunking loop over the character list. -/
def chunkJsonAux : Nat → List Char → List (List Char)
  | 0, _ => []
  | _, [] => []
  | fuel + 1, l@(_ :: _) => l.take kiroChunkSize :: chunkJsonAux fuel (l.drop kiroChunkSize)

/-- Slices of at most eight characters covering `l` in order, as produced by
the `slice` loop in `streamAnthropicToKiro`. -/
def chunkJson (l : List Char) : List (List Char) := chunkJsonAux l.length l

/-- A `toolUseEvent` frame as assembled by `createToolUseEvent` in
`src/kiro/smithy-encoder.js` for an input chunk. -/
structure ToolUseEvent where
  name : String
  toolUseId : String
  input : List Char
  deriving Repr, DecidableEq

/-- Translation of the `input_json_delta` branch of `streamAnthropicToKiro`
(`src/kiro/event-stream.js`): one `toolUseEvent` frame per chunk, in order.
The artificial 8 ms render delay has no effect on the emitted frames. -/
def handleInputJsonDelta (pj : List Char) (name toolUseId : String) :
    List ToolUseEvent :=
  (chunkJson pj).map fun c => { name := name, toolUseId := toolUseId, input := c }

end Antigravity

namespace Antigravity

/-! ## Account pool and token cache

The account manager (`src/account-manager/`) is not among the provided
sources; the definitions below are modelled from the specification of the
Account Pool and the Token/Project Cache. Emails and model names are strings,
instants are milliseconds as naturals, tokens and project ids are naturals
issued from a fresh counter. -/

/-- Modelled from the spec: the account pool. `limits` maps
`(email, model)` to the absolute instant until which the account is limited,
`sticky` maps a model to its current sticky account, `rr` is the round-robin
index. -/
structure Pool where
  emails : List String
  limits : List ((String × String) × Nat)
  sticky : List (String × String)
  rr : Nat
  deriving Repr, DecidableEq

/-- Modelled from the spec: an account is free for a model when it has no
rate-limit entry whose reset instant is still in the future. -/
def isFree (p : Pool) (email model : String) (now : Nat) : Bool :=
  match p.limits.lookup (email, model) with
  | some t => decide (t ≤ now)
  | none => true

/-- Modelled from the spec: `clearExpiredLimits` sweeps entries whose reset
instant is past. -/
def clearExpiredLimits (p : Pool) (now : Nat) : Pool :=
  { p with limits := p.limits.filter (fun x => decide (now < x.2)) }

/-- Modelled from the spec: `getAvailableAccounts` returns the accounts whose
state for the model is free. -/
def getAvailableAccounts (p : Pool) (model : String) (now : Nat) : List String :=
  p.emails.filter (fun e => isFree p e model now)

/-- Modelled from the spec: `isAllRateLimited` holds when the pool is
non-empty and every account is limited for the model. -/
def isAllRateLimited (p : Pool) (model : String) (now : Nat) : Bool :=
  !p.emails.isEmpty && p.emails.all (fun e => !isFree p e model now)

/-- Modelled from the spec: `getMinWaitTimeMs` is the minimum remaining wait
across the rate-limit entries of the model. -/
def getMinWaitTimeMs (p : Pool) (model : String) (now : Nat) : Nat :=
  let waits := p.limits.filterMap fun x =>
    if x.1.2 == model && decide (now < x.2) then some (x.2 - now) else none
  match waits with
  | [] => 0
  | w :: ws => ws.foldl Nat.min w

/-- Replace the sticky account of a model. -/
def setSticky (sticky : List (String × String)) (model email : String) :
    List (String × String) :=
  (model, email) :: sticky.filter (fun x => x.1 != model)

/-- Modelled from the spec: `getCurrentStickyAccount` returns the sticky
account of the model if it is still free, else null. -/
def getCurrentStickyAccount (p : Pool) (model : String) (now : Nat) : Option String :=
  match p.sticky.lookup model with
  | some e => if isFree p e model now then some e else none
  | none => none

/-- Modelled from the spec: `pickNext` advances the round-robin index modulo
the pool size, skipping limited accounts, and sets the account found as the
new sticky. -/
def pickNext (p : Pool) (model : String) (now : Nat) : Option String × Pool :=
  let n := p.emails.length
  let idxs := (List.range n).map (fun k => (p.rr + 1 + k) % n)
  match idxs.find? (fun i => isFree p (p.emails.getD i "") model now) with
  | some i =>
    let e := p.emails.getD i ""
    (some e, { p with rr := i, sticky := setSticky p.sticky model e })
  | none => (none, p)

/-- JavaScript `a || b` on a nullable number: `none` and `0` are falsy. -/
def jsOr (o : Option Nat) (dflt : Nat) : Nat :=
  match o with
  | some 0 => dflt
  | some r => r
  | none => dflt

/-- Modelled from the spec: `markRateLimited` sets `limited-until(now + resetMs)`
for the account and model, defaulting an absent reset to the short-retry
cooldown baseline, and clears the sticky pointer when it pointed at the
marked account. -/
def markRateLimited (p : Pool) (email : String) (resetMs : Option Nat)
    (model : String) (now : Nat) : Pool :=
  let ms := jsOr resetMs DEFAULT_COOLDOWN_MS
  { p with
    limits := ((email, model), now + ms) ::
      p.limits.filter (fun x => x.1 != (email, model))
    sticky := if p.sticky.lookup model == some email then
        p.sticky.filter (fun x => x.1 != model)
      else p.sticky }

/-- Modelled from the spec: the token / project cache, plus a counter issuing
fresh credential ids on refresh. -/
structure TokenCache where
  tokens : List (String × Nat)
  projects : List (String × Nat)
  deriving Repr, DecidableEq

/-- Modelled from the spec: `getTokenForAccount` returns the cached access
token, refreshing (here: issuing the next fresh id) when none is cached. -/
def getTokenForAccount (c : TokenCache) (email : String) (fresh : Nat) :
    Nat × TokenCache × Nat :=
  match c.tokens.lookup email with
  | some t => (t, c, fresh)
  | none => (fresh, { c with tokens := (email, fresh) :: c.tokens }, fresh + 1)

/-- Modelled from the spec: `getProjectForAccount` returns the cached project
id, discovering (here: issuing the next fresh id) when none is cached. -/
def getProjectForAccount (c : TokenCache) (email : String) (fresh : Nat) :
    Nat × TokenCache × Nat :=
  match c.projects.lookup email with
  | some t => (t, c, fresh)
  | none => (fresh, { c with projects := (email, fresh) :: c.projects }, fresh + 1)

/-- Modelled from the spec: `clearTokenCache` drops the cached token. -/
def clearTokenCache (c : TokenCache) (email : String) : TokenCache :=
  { c with tokens := c.tokens.filter (fun x => x.1 != email) }

/-- Modelled from the spec: `clearProjectCache` drops the cached project. -/
def clearProjectCache (c : TokenCache) (email : String) : TokenCache :=
  { c with projects := c.projects.filter (fun x => x.1 != email) }

end Antigravity

namespace Antigravity

/-! ## Canonical streaming events, fetch results, dispatch errors -/

/-- Block kinds of canonical `content_block_start` events. -/
inductive BlockKind where
  | text
  | thinking
  | tool_use
  deriving Repr, DecidableEq

/-- Payload of a canonical `content_block_delta` event. -/
inductive DeltaPayload where
  | text_delta (t : String)
  | input_json_delta (j : String)
  | thinking_delta (t : String)
  | signature_delta (s : String)
  deriving Repr, DecidableEq

/-- Canonical Anthropic-shaped streaming events, as in the spec data model. -/
inductive CanonEvent where
  | message_start
  | content_block_start (idx : Nat) (kind : BlockKind)
  | content_block_delta (idx : Nat) (delta : DeltaPayload)
  | content_block_stop (idx : Nat)
  | message_delta (stopReason : String)
  | message_stop
  | error_event (msg : String)
  deriving Repr, DecidableEq

/-- Body of a 2xx upstream streaming response, at the granularity the dispatch
engine observes it: either the empty-response condition, or the canonical
events the adapter produces from it. -/
inductive StreamBody where
  | empty
  | events (evs : List CanonEvent)
  deriving Repr, DecidableEq

/-- Modelled from the spec: `streamSSEResponse` of `src/cloudcode/sse-streamer.js`
is not in the provided sources. Per the spec it raises the EmptyResponse
condition when the stream carries no candidate text, no function calls and
zero output tokens — in which case no payload was observed, so nothing has
been yielded — and otherwise yields the canonical events, closing every open
block and converting a mid-stream abort into a terminal error event rather
than an exception. `none` is the EmptyResponse throw; `some evs` is a normal
generator run yielding `evs`. -/
def streamSSEResponse (body : StreamBody) : Option (List CanonEvent) :=
  match body with
  | .empty => none
  | .events evs => some evs

/-- Outcome of one upstream `fetch`: a 2xx response with a body, a non-2xx
status (with the reset delay `parseResetTime` extracts from it — the parser
`src/cloudcode/rate-limit-parser.js` is not in the provided sources and is
modelled from the spec as the parsed value attached to the response), or a
thrown network error. -/
inductive FetchResult where
  | ok (body : StreamBody)
  | httpErr (status : Nat) (resetMs : Option Nat)
  | netErr
  deriving Repr, DecidableEq

/-- Errors thrown inside the dispatch loops. Each constructor stands for one
`new Error(...)` message shape of the handlers (or a thrown fetch failure). -/
inductive DispatchError where
  | quotaExhausted
  | rateLimited
  | rateLimitedAfterRetry
  | rateLimitedDuringRetry
  | authInvalidDuringRetry
  | emptyRetryFailed (status : Nat)
  | apiError (status : Nat)
  | netError
  | emptyResponse
  | resourceExhausted (model : String) (waitMs : Nat)
  | noAccountsAvailable
  | maxRetriesExceeded
  deriving Repr, DecidableEq

/-- Modelled from the spec: `isRateLimitError` of `src/errors.js` recognizes
the rate-limit error messages (`QUOTA_EXHAUSTED`, `RATE_LIMITED`,
`RATE_LIMITED_AFTER_RETRY`, `429 RESOURCE_EXHAUSTED during retry`). -/
def isRateLimitError : DispatchError → Bool
  | .quotaExhausted | .rateLimited | .rateLimitedAfterRetry
  | .rateLimitedDuringRetry => true
  | _ => false

/-- Modelled from the spec: `isAuthError` of `src/errors.js` recognizes the
auth-invalid error message (`401 AUTH_INVALID during retry`). -/
def isAuthError : DispatchError → Bool
  | .authInvalidDuringRetry => true
  | _ => false

/-- Modelled from the spec: `isEmptyResponseError` of `src/errors.js`
recognizes the adapter's EmptyResponse condition. -/
def isEmptyResponseError : DispatchError → Bool
  | .emptyResponse => true
  | _ => false

/-- The outer catch tests `error.message` for the substrings `API error 5`,
`500` and `503`. An `API error <status>` message contains `API error 5`
exactly for 5xx statuses; an `Empty response retry failed: <status>` message
contains `500` or `503` exactly for those two statuses. -/
def mentions5xx : DispatchError → Bool
  | .apiError s => decide (500 ≤ s) && decide (s < 600)
  | .emptyRetryFailed s => s == 500 || s == 503
  | _ => false

/-- Modelled from the spec: `isNetworkError` of `src/utils/helpers.js`
recognizes thrown transport failures. -/
def isNetworkError : DispatchError → Bool
  | .netError => true
  | _ => false

end Antigravity

namespace Antigravity

/-! ## Dispatch engine state

The two handlers are embedded as state-passing functions over a
`DispatchState` and an oracle: the list of results the upstream returns for
consecutive `fetch` calls. `calls` records every issued upstream call with
the endpoint and bearer token used; `sleeps` records every `sleep`;
`yielded` records every canonical event yielded downstream, tagged with the
index of the fetch whose response produced it; `dispatches` records every
entered dispatch (model name and its `fallbackEnabled` flag); `attempts`
counts started attempt-loop iterations. -/

/-- One issued upstream call. -/
structure CallRec where
  endpoint : String
  token : Nat
  sse : Bool
  deriving Repr, DecidableEq

/-- The full engine state threaded through a dispatch. -/
structure DispatchState where
  pool : Pool
  cache : TokenCache
  now : Nat
  nextFetch : Nat
  calls : List CallRec
  sleeps : List Nat
  fresh : Nat
  yielded : List (Nat × CanonEvent)
  dispatches : List (String × Bool)
  attempts : Nat
  deriving Repr, DecidableEq

/-- Issue one upstream call: consume the next oracle entry and record the
call. A missing oracle entry behaves as a thrown network error. -/
def doFetch (oracle : List FetchResult) (ep : String) (tok : Nat) (sse : Bool)
    (st : DispatchState) : FetchResult × DispatchState :=
  (oracle.getD st.nextFetch .netErr,
   { st with nextFetch := st.nextFetch + 1, calls := st.calls ++ [⟨ep, tok, sse⟩] })

/-- Sleep for `ms` milliseconds: time advances, the sleep is recorded. -/
def doSleep (ms : Nat) (st : DispatchState) : DispatchState :=
  { st with now := st.now + ms, sleeps := st.sleeps ++ [ms] }

/-- Yield canonical events downstream, tagged with the producing fetch. -/
def yieldEvents (tag : Nat) (evs : List CanonEvent) (st : DispatchState) :
    DispatchState :=
  { st with yielded := st.yielded ++ evs.map (fun e => (tag, e)) }

/-- Translation of `emitEmptyResponseFallback` from
`src/cloudcode/streaming-handler.js`: the synthetic single-block sequence
(the random message id of the `message_start` envelope is not modelled). -/
def emitEmptyResponseFallback : List CanonEvent :=
  [.message_start,
   .content_block_start 0 .text,
   .content_block_delta 0 (.text_delta "[No response after retries - please try again]"),
   .content_block_stop 0,
   .message_delta "end_turn",
   .message_stop]

/-- Result of the endpoint loop of one attempt. -/
inductive EndpointOutcome where
  | success (fidx : Nat)
  | thrown (e : DispatchError)
  | fellThrough
  deriving Repr, DecidableEq

/-- Result of the shared attempt prologue (source lines 45-100 of both
handlers). -/
inductive PrologueOutcome where
  | proceed (email : String) (tok proj : Nat)
  | continueLoop
  | fallbackTo (fm : String)
  | fatal (e : DispatchError)
  deriving Repr, DecidableEq

/-- Result of one attempt-loop iteration after its catch clause. -/
inductive AttemptOutcome where
  | done (v : Nat)
  | nextAttempt
  | fallbackTo (fm : String)
  | fatal (e : DispatchError)
  deriving Repr, DecidableEq

/-- Result of the bounded attempt loop. -/
inductive LoopResult where
  | done (v : Nat)
  | fallbackTo (fm : String)
  | fatal (e : DispatchError)
  | exhausted
  deriving Repr, DecidableEq

/-- Result of a whole dispatch. -/
inductive SendOutcome where
  | ok (v : Nat)
  | error (e : DispatchError)
  deriving Repr, DecidableEq

/-- Resolve token and project for the picked account (lines 97-99 of both
handlers). -/
def resolveAccount (email : String) (st : DispatchState) :
    (Nat × Nat) × DispatchState :=
  let (tok, cache, fresh) := getTokenForAccount st.cache email st.fresh
  let (proj, cache, fresh) := getProjectForAccount cache email fresh
  ((tok, proj), { st with cache := cache, fresh := fresh })

/-- Shared attempt prologue, identical in `message-handler.js` (lines 45-99)
and `streaming-handler.js` (lines 44-99): clear expired limits; if no account
is available and all are limited, either hop to the fallback model / fail
with `RESOURCE_EXHAUSTED` (wait above the 2-minute ceiling) or sleep
`minWait + 500` and continue; otherwise pick the sticky account or the next
round-robin account and resolve its token and project. -/
def attemptPrologue (fallbackEnabled : Bool) (model : String)
    (st : DispatchState) : PrologueOutcome × DispatchState :=
  let st := { st with pool := clearExpiredLimits st.pool st.now }
  if (getAvailableAccounts st.pool model st.now).isEmpty then
    if isAllRateLimited st.pool model st.now then
      let minWaitMs := getMinWaitTimeMs st.pool model st.now
      if MAX_WAIT_BEFORE_ERROR_MS < minWaitMs then
        if fallbackEnabled then
          match getFallbackModel model with
          | some fm => (.fallbackTo fm, st)
          | none => (.fatal (.resourceExhausted model minWaitMs), st)
        else (.fatal (.resourceExhausted model minWaitMs), st)
      else
        let st := doSleep (minWaitMs + 500) st
        let st := { st with pool := clearExpiredLimits st.pool st.now }
        (.continueLoop, st)
    else (.fatal .noAccountsAvailable, st)
  else
    match getCurrentStickyAccount st.pool model st.now with
    | some email =>
      let ((tok, proj), st) := resolveAccount email st
      (.proceed email tok proj, st)
    | none =>
      let (acct, pool) := pickNext st.pool model st.now
      let st := { st with pool := pool }
      match acct with
      | none => (.continueLoop, st)
      | some email =>
        let ((tok, proj), st) := resolveAccount email st
        (.proceed email tok proj, st)

/-- The outer catch of both handlers (message-handler lines 220-246,
streaming-handler lines 277-303): rate-limit and auth errors continue with
the next attempt; errors whose message marks a 5xx advance the round-robin
and continue; network errors sleep one second, advance the round-robin and
continue; anything else aborts the dispatch. -/
def classifyThrown (model : String) (e : DispatchError) (st : DispatchState) :
    AttemptOutcome × DispatchState :=
  if isRateLimitError e then (.nextAttempt, st)
  else if isAuthError e then (.nextAttempt, st)
  else if mentions5xx e then
    let (_, pool) := pickNext st.pool model st.now
    (.nextAttempt, { st with pool := pool })
  else if isNetworkError e then
    let st := doSleep 1000 st
    let (_, pool) := pickNext st.pool model st.now
    (.nextAttempt, { st with pool := pool })
  else (.fatal e, st)

end Antigravity

namespace Antigravity

/-! ## Non-streaming handler (`src/cloudcode/message-handler.js`) -/

/-- Translation of the endpoint loop of `sendMessage` (lines 104-218).
`retriedOnce` is the per-attempt short-rate-limit flag, `lastError` the
accumulated endpoint error. On 401 the token and project caches are cleared
and the loop continues with the next endpoint (and the same token variable).
On 429 a parsed reset above the cooldown marks the account limited and throws
`QUOTA_EXHAUSTED`; otherwise the loop sleeps the parsed-or-default wait and
re-issues the same endpoint once per attempt, marking and throwing on a
second failure. Other non-2xx statuses at least 400 accumulate into
`lastError` (5xx after a one-second sleep); a non-2xx status below 400 falls
through to the JSON parse and is returned as a success. When the loop ends,
an accumulated `lastError` is thrown (the `lastError.is429` branch of the
source is dead: no assigned error carries `is429`); with no accumulated
error the attempt falls through to the next iteration. -/
def msgEndpointLoop (oracle : List FetchResult) (tok : Nat) (email model : String) :
    Bool → Option DispatchError → List String → DispatchState →
    EndpointOutcome × DispatchState
  | _, lastError, [], st =>
    match lastError with
    | some e => (.thrown e, st)
    | none => (.fellThrough, st)
  | retriedOnce, lastError, ep :: rest, st =>
    let sse := isThinkingModel (some model)
    let fidx := st.nextFetch
    let (res, st) := doFetch oracle ep tok sse st
    match res with
    | .netErr =>
      msgEndpointLoop oracle tok email model retriedOnce (some .netError) rest st
    | .ok _ => (.success fidx, st)
    | .httpErr status resetMs =>
      if status == 401 then
        let st := { st with
          cache := clearProjectCache (clearTokenCache st.cache email) email }
        msgEndpointLoop oracle tok email model retriedOnce lastError rest st
      else if status == 429 then
        if (match resetMs with
            | some r => decide (DEFAULT_COOLDOWN_MS < r)
            | none => false) then
          let st := { st with
            pool := markRateLimited st.pool email resetMs model st.now }
          (.thrown .quotaExhausted, st)
        else
          let waitMs := jsOr resetMs DEFAULT_COOLDOWN_MS
          if retriedOnce then
            let st := { st with
              pool := markRateLimited st.pool email (some waitMs) model st.now }
            (.thrown .rateLimited, st)
          else
            let st := doSleep waitMs st
            let ridx := st.nextFetch
            let (rres, st) := doFetch oracle ep tok sse st
            match rres with
            | .ok _ => (.success ridx, st)
            | .netErr =>
              msgEndpointLoop oracle tok email model true (some .netError) rest st
            | .httpErr _ rms2 =>
              let st := { st with
                pool := markRateLimited st.pool email
                  (some (jsOr rms2 waitMs)) model st.now }
              (.thrown .rateLimitedAfterRetry, st)
      else if 400 ≤ status then
        let st := if 500 ≤ status then doSleep 1000 st else st
        msgEndpointLoop oracle tok email model retriedOnce
          (some (.apiError status)) rest st
      else
        (.success fidx, st)

/-- One iteration of the `sendMessage` attempt loop: prologue, endpoint loop,
outer catch. -/
def msgAttempt (fallbackEnabled : Bool) (oracle : List FetchResult)
    (model : String) (st : DispatchState) : AttemptOutcome × DispatchState :=
  let st := { st with attempts := st.attempts + 1 }
  match attemptPrologue fallbackEnabled model st with
  | (.proceed email tok _proj, st) =>
    match msgEndpointLoop oracle tok email model false none
        ANTIGRAVITY_ENDPOINT_FALLBACKS st with
    | (.success i, st) => (.done i, st)
    | (.thrown e, st) => classifyThrown model e st
    | (.fellThrough, st) => (.nextAttempt, st)
  | (.continueLoop, st) => (.nextAttempt, st)
  | (.fallbackTo fm, st) => (.fallbackTo fm, st)
  | (.fatal e, st) => (.fatal e, st)

/-- The bounded attempt loop of `sendMessage`, with the remaining iteration
count as fuel. -/
def msgLoop (fallbackEnabled : Bool) (oracle : List FetchResult) (model : String) :
    Nat → DispatchState → LoopResult × DispatchState
  | 0, st => (.exhausted, st)
  | n + 1, st =>
    match msgAttempt fallbackEnabled oracle model st with
    | (.done v, st) => (.done v, st)
    | (.nextAttempt, st) => msgLoop fallbackEnabled oracle model n st
    | (.fallbackTo fm, st) => (.fallbackTo fm, st)
    | (.fatal e, st) => (.fatal e, st)

/-- `maxAttempts = Math.max(MAX_RETRIES, accountManager.getAccountCount() + 1)`. -/
def maxAttempts (p : Pool) : Nat := max MAX_RETRIES (p.emails.length + 1)

/-- `sendMessage` with fallback disabled: the attempt loop followed by the
terminal `Max retries exceeded` throw. The `fallbackTo` case cannot occur
with the flag off and maps to the same terminal error. -/
def sendMessageNF (oracle : List FetchResult) (model : String)
    (st : DispatchState) : SendOutcome × DispatchState :=
  let st := { st with dispatches := st.dispatches ++ [(model, false)] }
  match msgLoop false oracle model (maxAttempts st.pool) st with
  | (.done v, st) => (.ok v, st)
  | (.fatal e, st) => (.error e, st)
  | (.fallbackTo _, st) => (.error .maxRetriesExceeded, st)
  | (.exhausted, st) => (.error .maxRetriesExceeded, st)

/-- Translation of `sendMessage` from `src/cloudcode/message-handler.js`.
A fallback hop — from the all-limited branch mid-loop or after exhaustion —
re-enters the handler on the fallback model with fallback disabled. -/
def sendMessage (fallbackEnabled : Bool) (oracle : List FetchResult)
    (model : String) (st : DispatchState) : SendOutcome × DispatchState :=
  if fallbackEnabled then
    let st := { st with dispatches := st.dispatches ++ [(model, true)] }
    match msgLoop true oracle model (maxAttempts st.pool) st with
    | (.done v, st) => (.ok v, st)
    | (.fatal e, st) => (.error e, st)
    | (.fallbackTo fm, st) => sendMessageNF oracle fm st
    | (.exhausted, st) =>
      match getFallbackModel model with
      | some fm => sendMessageNF oracle fm st
      | none => (.error .maxRetriesExceeded, st)
  else sendMessageNF oracle model st

end Antigravity

namespace Antigravity

/-! ## Streaming handler (`src/cloudcode/streaming-handler.js`) -/

/-- Translation of the empty-response retry loop of `sendMessageStream`
(lines 186-253). `left` counts the remaining empty-response retries (initially
`MAX_EMPTY_RESPONSE_RETRIES`), `curIdx` is the fetch index of the response
about to be streamed. A non-empty body is yielded and the generator returns.
An empty body with retries left sleeps the exponential backoff
(`500 * 2 ^ emptyRetries`) and refetches the same endpoint: a 429 marks the
account and throws, a 401 clears the caches and throws, a 5xx sleeps one
second and refetches once more (streaming it when 2xx, else throwing
`Empty response retry failed`), any other non-2xx status throws
`Empty response retry failed`, and a thrown fetch failure propagates. With no
retries left the synthetic fallback sequence is yielded and the generator
returns. -/
def emptyRetryLoop (oracle : List FetchResult) (tok : Nat) (email model ep : String) :
    Nat → Nat → StreamBody → DispatchState → EndpointOutcome × DispatchState
  | left, curIdx, curBody, st =>
    match streamSSEResponse curBody with
    | some evs =>
      let st := yieldEvents curIdx evs st
      (.success curIdx, st)
    | none =>
      match left with
      | 0 =>
        let st := yieldEvents curIdx emitEmptyResponseFallback st
        (.success curIdx, st)
      | left' + 1 =>
        let st := doSleep (500 * 2 ^ (MAX_EMPTY_RESPONSE_RETRIES - left)) st
        let ridx := st.nextFetch
        let (res, st) := doFetch oracle ep tok true st
        match res with
        | .ok b => emptyRetryLoop oracle tok email model ep left' ridx b st
        | .netErr => (.thrown .netError, st)
        | .httpErr status rms =>
          if status == 429 then
            let st := { st with
              pool := markRateLimited st.pool email rms model st.now }
            (.thrown .rateLimitedDuringRetry, st)
          else if status == 401 then
            let st := { st with
              cache := clearProjectCache (clearTokenCache st.cache email) email }
            (.thrown .authInvalidDuringRetry, st)
          else if 500 ≤ status then
            let st := doSleep 1000 st
            let r2idx := st.nextFetch
            let (res2, st) := doFetch oracle ep tok true st
            match res2 with
            | .ok b2 => emptyRetryLoop oracle tok email model ep left' r2idx b2 st
            | .netErr => (.thrown .netError, st)
            | .httpErr s2 _ => (.thrown (.emptyRetryFailed s2), st)
          else
            (.thrown (.emptyRetryFailed status), st)

/-- Translation of the endpoint loop of `sendMessageStream` (lines 104-275).
It differs from the non-streaming loop in that every call is a streaming
call, a 2xx body enters the empty-response retry loop, the one short-429
retry streams its 2xx body directly (throwing the EmptyResponse condition
when that body is empty), every other non-2xx status accumulates into
`lastError`, and errors thrown by the empty-response loop are re-thrown when
they are rate-limit or empty-response errors and accumulate into `lastError`
otherwise. -/
def strEndpointLoop (oracle : List FetchResult) (tok : Nat) (email model : String) :
    Bool → Option DispatchError → List String → DispatchState →
    EndpointOutcome × DispatchState
  | _, lastError, [], st =>
    match lastError with
    | some e => (.thrown e, st)
    | none => (.fellThrough, st)
  | retriedOnce, lastError, ep :: rest, st =>
    let fidx := st.nextFetch
    let (res, st) := doFetch oracle ep tok true st
    match res with
    | .netErr =>
      strEndpointLoop oracle tok email model retriedOnce (some .netError) rest st
    | .ok body =>
      match emptyRetryLoop oracle tok email model ep
          MAX_EMPTY_RESPONSE_RETRIES fidx body st with
      | (.success i, st) => (.success i, st)
      | (.thrown e, st) =>
        if isRateLimitError e || isEmptyResponseError e then (.thrown e, st)
        else strEndpointLoop oracle tok email model retriedOnce (some e) rest st
      | (.fellThrough, st) => (.fellThrough, st)
    | .httpErr status resetMs =>
      if status == 401 then
        let st := { st with
          cache := clearProjectCache (clearTokenCache st.cache email) email }
        strEndpointLoop oracle tok email model retriedOnce lastError rest st
      else if status == 429 then
        if (match resetMs with
            | some r => decide (DEFAULT_COOLDOWN_MS < r)
            | none => false) then
          let st := { st with
            pool := markRateLimited st.pool email resetMs model st.now }
          (.thrown .quotaExhausted, st)
        else
          let waitMs := jsOr resetMs DEFAULT_COOLDOWN_MS
          if retriedOnce then
            let st := { st with
              pool := markRateLimited st.pool email (some waitMs) model st.now }
            (.thrown .rateLimited, st)
          else
            let st := doSleep waitMs st
            let ridx := st.nextFetch
            let (rres, st) := doFetch oracle ep tok true st
            match rres with
            | .ok b =>
              match streamSSEResponse b with
              | some evs =>
                let st := yieldEvents ridx evs st
                (.success ridx, st)
              | none => (.thrown .emptyResponse, st)
            | .netErr =>
              strEndpointLoop oracle tok email model true (some .netError) rest st
            | .httpErr _ rms2 =>
              let st := { st with
                pool := markRateLimited st.pool email
                  (some (jsOr rms2 waitMs)) model st.now }
              (.thrown .rateLimitedAfterRetry, st)
      else
        let st := if 500 ≤ status then doSleep 1000 st else st
        strEndpointLoop oracle tok email model retriedOnce
          (some (.apiError status)) rest st

/-- One iteration of the `sendMessageStream` attempt loop. -/
def strAttempt (fallbackEnabled : Bool) (oracle : List FetchResult)
    (model : String) (st : DispatchState) : AttemptOutcome × DispatchState :=
  let st := { st with attempts := st.attempts + 1 }
  match attemptPrologue fallbackEnabled model st with
  | (.proceed email tok _proj, st) =>
    match strEndpointLoop oracle tok email model false none
        ANTIGRAVITY_ENDPOINT_FALLBACKS st with
    | (.success i, st) => (.done i, st)
    | (.thrown e, st) => classifyThrown model e st
    | (.fellThrough, st) => (.nextAttempt, st)
  | (.continueLoop, st) => (.nextAttempt, st)
  | (.fallbackTo fm, st) => (.fallbackTo fm, st)
  | (.fatal e, st) => (.fatal e, st)

/-- The bounded attempt loop of `sendMessageStream`. -/
def strLoop (fallbackEnabled : Bool) (oracle : List FetchResult) (model : String) :
    Nat → DispatchState → LoopResult × DispatchState
  | 0, st => (.exhausted, st)
  | n + 1, st =>
    match strAttempt fallbackEnabled oracle model st with
    | (.done v, st) => (.done v, st)
    | (.nextAttempt, st) => strLoop fallbackEnabled oracle model n st
    | (.fallbackTo fm, st) => (.fallbackTo fm, st)
    | (.fatal e, st) => (.fatal e, st)

/-- `sendMessageStream` with fallback disabled. -/
def sendMessageStreamNF (oracle : List FetchResult) (model : String)
    (st : DispatchState) : SendOutcome × DispatchState :=
  let st := { st with dispatches := st.dispatches ++ [(model, false)] }
  match strLoop false oracle model (maxAttempts st.pool) st with
  | (.done v, st) => (.ok v, st)
  | (.fatal e, st) => (.error e, st)
  | (.fallbackTo _, st) => (.error .maxRetriesExceeded, st)
  | (.exhausted, st) => (.error .maxRetriesExceeded, st)

/-- Translation of `sendMessageStream` from
`src/cloudcode/streaming-handler.js`, with the same fallback-hop structure as
the non-streaming handler (lines 60-67 and 306-315). -/
def sendMessageStream (fallbackEnabled : Bool) (oracle : List FetchResult)
    (model : String) (st : DispatchState) : SendOutcome × DispatchState :=
  if fallbackEnabled then
    let st := { st with dispatches := st.dispatches ++ [(model, true)] }
    match strLoop true oracle model (maxAttempts st.pool) st with
    | (.done v, st) => (.ok v, st)
    | (.fatal e, st) => (.error e, st)
    | (.fallbackTo fm, st) => sendMessageStreamNF oracle fm st
    | (.exhausted, st) =>
      match getFallbackModel model with
      | some fm => sendMessageStreamNF oracle fm st
      | none => (.error .maxRetriesExceeded, st)
  else sendMessageStreamNF oracle model st

end Antigravity

namespace Antigravity

set_option maxHeartbeats 2000000 in
theorem msgEndpointLoop_frame (oracle : List FetchResult) (tok : Nat)
    (email model : String) :
    ∀ (eps : List String) (ro : Bool) (le : Option DispatchError)
      (st : DispatchState),
      ((msgEndpointLoop oracle tok email model ro le eps st).2.dispatches
          = st.dispatches) ∧
      ((msgEndpointLoop oracle tok email model ro le eps st).2.pool.emails
          = st.pool.emails) ∧
      ((msgEndpointLoop oracle tok email model ro le eps st).2.yielded
          = st.yielded) ∧
      ((msgEndpointLoop oracle tok email model ro le eps st).2.attempts
          = st.attempts) ∧
      ((msgEndpointLoop oracle tok email model ro le eps st).2.nextFetch
          ≤ st.nextFetch + eps.length + (if ro then 0 else 1)) := by
  intro eps
  induction eps with
  | nil =>
    intro ro le st
    cases le <;> simp [msgEndpointLoop]
  | cons ep rest ih =>
    intro ro le st
    unfold msgEndpointLoop
    simp only [doFetch]
    cases hres : oracle.getD st.nextFetch .netErr with
    | netErr =>
      simp only [hres]
      obtain ⟨h1, h2, h3, h4, h5⟩ := ih ro (some .netError)
        { st with nextFetch := st.nextFetch + 1,
                  calls := st.calls ++ [⟨ep, tok, isThinkingModel (some model)⟩] }
      refine ⟨h1, h2, h3, h4, ?_⟩
      simp at h5 ⊢
      rcases ro with _ | _ <;> simp at h5 ⊢ <;> omega
    | ok body =>
      simp only [hres]
      simp <;> omega
    | httpErr status resetMs =>
      simp only [hres]
      by_cases h401 : (status == 401)
      · simp only [h401, if_true]
        obtain ⟨h1, h2, h3, h4, h5⟩ := ih ro le
          { st with nextFetch := st.nextFetch + 1,
                    calls := st.calls ++ [⟨ep, tok, isThinkingModel (some model)⟩],
                    cache := clearProjectCache (clearTokenCache st.cache email) email }
        refine ⟨h1, h2, h3, h4, ?_⟩
        simp at h5 ⊢
        rcases ro with _ | _ <;> simp at h5 ⊢ <;> omega
      · simp only [h401, if_false]
        by_cases h429 : (status == 429)
        · simp only [h429, if_true]
          rcases hrms : resetMs with _ | r
          · -- unparsed reset
            simp only
            rcases ro with _ | _
            · simp only [Bool.false_eq_true, if_false, doSleep]
              cases hres2 : oracle.getD (st.nextFetch + 1) .netErr with
              | ok body =>
                simp only [hres2]
                simp <;> omega
              | netErr =>
                simp only [hres2]
                obtain ⟨h1, h2, h3, h4, h5⟩ := ih true (some .netError)
                  { st with nextFetch := st.nextFetch + 1 + 1,
                            calls := (st.calls ++ [⟨ep, tok, isThinkingModel (some model)⟩]) ++ [⟨ep, tok, isThinkingModel (some model)⟩],
                            now := st.now + jsOr none DEFAULT_COOLDOWN_MS,
                            sleeps := st.sleeps ++ [jsOr none DEFAULT_COOLDOWN_MS] }
                refine ⟨h1, h2, h3, h4, ?_⟩
                simp at h5 ⊢
                omega
              | httpErr s2 rms2 =>
                simp only [hres2]
                simp [markRateLimited] <;> omega
            · simp only [if_true]
              simp [markRateLimited] <;> omega
          · -- parsed reset
            cases hlong : decide (DEFAULT_COOLDOWN_MS < r) with
            | true =>
              simp only [hlong, if_true]
              simp [markRateLimited] <;> omega
            | false =>
              simp only [hlong, Bool.false_eq_true, if_false]
              rcases ro with _ | _
              · simp only [Bool.false_eq_true, if_false, doSleep]
                cases hres2 : oracle.getD (st.nextFetch + 1) .netErr with
                | ok body =>
                  simp only [hres2]
                  simp <;> omega
                | netErr =>
                  simp only [hres2]
                  obtain ⟨h1, h2, h3, h4, h5⟩ := ih true (some .netError)
                    { st with nextFetch := st.nextFetch + 1 + 1,
                              calls := (st.calls ++ [⟨ep, tok, isThinkingModel (some model)⟩]) ++ [⟨ep, tok, isThinkingModel (some model)⟩],
                              now := st.now + jsOr (some r) DEFAULT_COOLDOWN_MS,
                              sleeps := st.sleeps ++ [jsOr (some r) DEFAULT_COOLDOWN_MS] }
                  refine ⟨h1, h2, h3, h4, ?_⟩
                  simp at h5 ⊢
                  omega
                | httpErr s2 rms2 =>
                  simp only [hres2]
                  simp [markRateLimited] <;> omega
              · simp only [if_true]
                simp [markRateLimited] <;> omega
        · simp only [h429, if_false]
          by_cases h400 : (400 ≤ status)
          · simp only [h400, if_true]
            by_cases h500 : (500 ≤ status)
            · simp only [h500, if_true, doSleep]
              obtain ⟨h1, h2, h3, h4, h5⟩ := ih ro (some (.apiError status))
                { st with nextFetch := st.nextFetch + 1,
                          calls := st.calls ++ [⟨ep, tok, isThinkingModel (some model)⟩],
                          now := st.now + 1000,
                          sleeps := st.sleeps ++ [1000] }
              refine ⟨h1, h2, h3, h4, ?_⟩
              simp at h5 ⊢
              rcases ro with _ | _ <;> simp at h5 ⊢ <;> omega
            · simp only [h500, if_false]
              obtain ⟨h1, h2, h3, h4, h5⟩ := ih ro (some (.apiError status))
                { st with nextFetch := st.nextFetch + 1,
                          calls := st.calls ++ [⟨ep, tok, isThinkingModel (some model)⟩] }
              refine ⟨h1, h2, h3, h4, ?_⟩
              simp at h5 ⊢
              rcases ro with _ | _ <;> simp at h5 ⊢ <;> omega
          · simp only [h400, if_false]
            simp <;> omega

end Antigravity

namespace Antigravity

set_option maxHeartbeats 2000000 in
theorem emptyRetryLoop_frame (oracle : List FetchResult) (tok : Nat)
    (email model ep : String) :
    ∀ (left curIdx : Nat) (curBody : StreamBody) (st : DispatchState),
      ((emptyRetryLoop oracle tok email model ep left curIdx curBody st).2.dispatches
          = st.dispatches) ∧
      ((emptyRetryLoop oracle tok email model ep left curIdx curBody st).2.pool.emails
          = st.pool.emails) ∧
      ((emptyRetryLoop oracle tok email model ep left curIdx curBody st).2.attempts
          = st.attempts) ∧
      ((emptyRetryLoop oracle tok email model ep left curIdx curBody st).2.nextFetch
          ≤ st.nextFetch + 2 * left) := by
  intro left
  induction left with
  | zero =>
    intro curIdx curBody st
    cases curBody <;> simp [emptyRetryLoop, streamSSEResponse, yieldEvents]
  | succ left' ih =>
    intro curIdx curBody st
    cases curBody with
    | events evs => simp [emptyRetryLoop, streamSSEResponse, yieldEvents]
    | empty =>
      rw [show emptyRetryLoop oracle tok email model ep (left' + 1) curIdx .empty st
          = emptyRetryLoop oracle tok email model ep (left' + 1) curIdx .empty st from rfl]
      simp only [emptyRetryLoop, streamSSEResponse, doSleep, doFetch]
      cases hres : oracle.getD st.nextFetch .netErr with
      | ok b =>
        simp only [hres]
        obtain ⟨h1, h2, h3, h4⟩ := ih st.nextFetch b
          { st with nextFetch := st.nextFetch + 1,
                    calls := st.calls ++ [⟨ep, tok, true⟩],
                    now := st.now + 500 * 2 ^ (MAX_EMPTY_RESPONSE_RETRIES - (left' + 1)),
                    sleeps := st.sleeps ++ [500 * 2 ^ (MAX_EMPTY_RESPONSE_RETRIES - (left' + 1))] }
        refine ⟨h1, h2, h3, ?_⟩
        simp at h4 ⊢
        omega
      | netErr => simp only [hres]; simp <;> omega
      | httpErr status rms =>
        simp only [hres]
        by_cases h429 : (status == 429)
        · simp only [h429, if_true]
          simp [markRateLimited] <;> omega
        · simp only [h429, if_false]
          by_cases h401 : (status == 401)
          · simp only [h401, if_true]
            simp <;> omega
          · simp only [h401, if_false]
            by_cases h500 : (500 ≤ status)
            · simp only [h500, if_true, doSleep, doFetch]
              cases hres2 : oracle.getD (st.nextFetch + 1) .netErr with
              | ok b2 =>
                simp only [hres2]
                obtain ⟨h1, h2, h3, h4⟩ := ih (st.nextFetch + 1) b2
                  { st with nextFetch := st.nextFetch + 1 + 1,
                            calls := (st.calls ++ [⟨ep, tok, true⟩]) ++ [⟨ep, tok, true⟩],
                            now := st.now + 500 * 2 ^ (MAX_EMPTY_RESPONSE_RETRIES - (left' + 1)) + 1000,
                            sleeps := (st.sleeps ++ [500 * 2 ^ (MAX_EMPTY_RESPONSE_RETRIES - (left' + 1))]) ++ [1000] }
                refine ⟨h1, h2, h3, ?_⟩
                simp at h4 ⊢
                omega
              | netErr => simp only [hres2]; simp <;> omega
              | httpErr s2 r2 => simp only [hres2]; simp <;> omega
            · simp only [h500, if_false]
              simp <;> omega

end Antigravity

namespace Antigravity

set_option maxHeartbeats 2000000 in
theorem strEndpointLoop_frame (oracle : List FetchResult) (tok : Nat)
    (email model : String) :
    ∀ (eps : List String) (ro : Bool) (le : Option DispatchError)
      (st : DispatchState),
      ((strEndpointLoop oracle tok email model ro le eps st).2.dispatches
          = st.dispatches) ∧
      ((strEndpointLoop oracle tok email model ro le eps st).2.pool.emails
          = st.pool.emails) ∧
      ((strEndpointLoop oracle tok email model ro le eps st).2.attempts
          = st.attempts) ∧
      ((strEndpointLoop oracle tok email model ro le eps st).2.nextFetch
          ≤ st.nextFetch + 5 * eps.length + (if ro then 0 else 1)) := by
  intro eps
  induction eps with
  | nil =>
    intro ro le st
    cases le <;> simp [strEndpointLoop]
  | cons ep rest ih =>
    intro ro le st
    unfold strEndpointLoop
    simp only [doFetch]
    cases hres : oracle.getD st.nextFetch .netErr with
    | netErr =>
      simp only [hres]
      obtain ⟨h1, h2, h3, h4⟩ := ih ro (some .netError)
        { st with nextFetch := st.nextFetch + 1,
                  calls := st.calls ++ [⟨ep, tok, true⟩] }
      refine ⟨h1, h2, h3, ?_⟩
      simp at h4 ⊢
      rcases ro with _ | _ <;> simp at h4 ⊢ <;> omega
    | ok body =>
      simp only [hres]
      rcases hE : emptyRetryLoop oracle tok email model ep
          MAX_EMPTY_RESPONSE_RETRIES st.nextFetch body
          { st with nextFetch := st.nextFetch + 1,
                    calls := st.calls ++ [⟨ep, tok, true⟩] } with ⟨out, st2⟩
      obtain ⟨g1, g2, g3, g4⟩ := emptyRetryLoop_frame oracle tok email model ep
        MAX_EMPTY_RESPONSE_RETRIES st.nextFetch body
        { st with nextFetch := st.nextFetch + 1,
                  calls := st.calls ++ [⟨ep, tok, true⟩] }
      rw [hE] at g1 g2 g3 g4
      simp at g1 g2 g3 g4
      cases out with
      | success i =>
        simp only [hE]
        refine ⟨g1, g2, g3, ?_⟩
        simp only [MAX_EMPTY_RESPONSE_RETRIES] at g4
        simp
        omega
      | thrown e =>
        simp only [hE]
        cases hcl : (isRateLimitError e || isEmptyResponseError e) with
        | true =>
          simp only [hcl, if_true]
          refine ⟨g1, g2, g3, ?_⟩
          simp only [MAX_EMPTY_RESPONSE_RETRIES] at g4
          simp
          omega
        | false =>
          simp only [hcl, Bool.false_eq_true, if_false]
          obtain ⟨h1, h2, h3, h4⟩ := ih ro (some e) st2
          refine ⟨h1.trans g1, h2.trans g2, h3.trans g3, ?_⟩
          simp only [MAX_EMPTY_RESPONSE_RETRIES] at g4
          simp at h4 ⊢
          rcases ro with _ | _ <;> simp at h4 ⊢ <;> omega
      | fellThrough =>
        simp only [hE]
        refine ⟨g1, g2, g3, ?_⟩
        simp only [MAX_EMPTY_RESPONSE_RETRIES] at g4
        simp
        omega
    | httpErr status resetMs =>
      simp only [hres]
      by_cases h401 : (status == 401)
      · simp only [h401, if_true]
        obtain ⟨h1, h2, h3, h4⟩ := ih ro le
          { st with nextFetch := st.nextFetch + 1,
                    calls := st.calls ++ [⟨ep, tok, true⟩],
                    cache := clearProjectCache (clearTokenCache st.cache email) email }
        refine ⟨h1, h2, h3, ?_⟩
        simp at h4 ⊢
        rcases ro with _ | _ <;> simp at h4 ⊢ <;> omega
      · simp only [h401, if_false]
        by_cases h429 : (status == 429)
        · simp only [h429, if_true]
          rcases hrms : resetMs with _ | r
          · simp only
            rcases ro with _ | _
            · simp only [Bool.false_eq_true, if_false, doSleep]
              cases hres2 : oracle.getD (st.nextFetch + 1) .netErr with
              | ok b =>
                simp only [hres2]
                cases b <;> simp [streamSSEResponse, yieldEvents] <;> omega
              | netErr =>
                simp only [hres2]
                obtain ⟨h1, h2, h3, h4⟩ := ih true (some .netError)
                  { st with nextFetch := st.nextFetch + 1 + 1,
                            calls := (st.calls ++ [⟨ep, tok, true⟩]) ++ [⟨ep, tok, true⟩],
                            now := st.now + jsOr none DEFAULT_COOLDOWN_MS,
                            sleeps := st.sleeps ++ [jsOr none DEFAULT_COOLDOWN_MS] }
                refine ⟨h1, h2, h3, ?_⟩
                simp at h4 ⊢
                omega
              | httpErr s2 rms2 =>
                simp only [hres2]
                simp [markRateLimited] <;> omega
            · simp only [if_true]
              simp [markRateLimited] <;> omega
          · cases hlong : decide (DEFAULT_COOLDOWN_MS < r) with
            | true =>
              simp only [hlong, if_true]
              simp [markRateLimited] <;> omega
            | false =>
              simp only [hlong, Bool.false_eq_true, if_false]
              rcases ro with _ | _
              · simp only [Bool.false_eq_true, if_false, doSleep]
                cases hres2 : oracle.getD (st.nextFetch + 1) .netErr with
                | ok b =>
                  simp only [hres2]
                  cases b <;> simp [streamSSEResponse, yieldEvents] <;> omega
                | netErr =>
                  simp only [hres2]
                  obtain ⟨h1, h2, h3, h4⟩ := ih true (some .netError)
                    { st with nextFetch := st.nextFetch + 1 + 1,
                              calls := (st.calls ++ [⟨ep, tok, true⟩]) ++ [⟨ep, tok, true⟩],
                              now := st.now + jsOr (some r) DEFAULT_COOLDOWN_MS,
                              sleeps := st.sleeps ++ [jsOr (some r) DEFAULT_COOLDOWN_MS] }
                  refine ⟨h1, h2, h3, ?_⟩
                  simp at h4 ⊢
                  omega
                | httpErr s2 rms2 =>
                  simp only [hres2]
                  simp [markRateLimited] <;> omega
              · simp only [if_true]
                simp [markRateLimited] <;> omega
        · simp only [h429, if_false]
          by_cases h500 : (500 ≤ status)
          · simp only [h500, if_true, doSleep]
            obtain ⟨h1, h2, h3, h4⟩ := ih ro (some (.apiError status))
              { st with nextFetch := st.nextFetch + 1,
                        calls := st.calls ++ [⟨ep, tok, true⟩],
                        now := st.now + 1000,
                        sleeps := st.sleeps ++ [1000] }
            refine ⟨h1, h2, h3, ?_⟩
            simp at h4 ⊢
            rcases ro with _ | _ <;> simp at h4 ⊢ <;> omega
          · simp only [h500, if_false]
            obtain ⟨h1, h2, h3, h4⟩ := ih ro (some (.apiError status))
              { st with nextFetch := st.nextFetch + 1,
                        calls := st.calls ++ [⟨ep, tok, true⟩] }
            refine ⟨h1, h2, h3, ?_⟩
            simp at h4 ⊢
            rcases ro with _ | _ <;> simp at h4 ⊢ <;> omega

end Antigravity

namespace Antigravity

theorem pickNext_emails (p : Pool) (model : String) (now : Nat) :
    (pickNext p model now).2.emails = p.emails := by
  unfold pickNext
  dsimp only
  split <;> simp

theorem attemptPrologue_frame (fb : Bool) (model : String) (st : DispatchState) :
    ((attemptPrologue fb model st).2.dispatches = st.dispatches) ∧
    ((attemptPrologue fb model st).2.pool.emails = st.pool.emails) ∧
    ((attemptPrologue fb model st).2.yielded = st.yielded) ∧
    ((attemptPrologue fb model st).2.attempts = st.attempts) ∧
    ((attemptPrologue fb model st).2.nextFetch = st.nextFetch) ∧
    ((attemptPrologue fb model st).2.calls = st.calls) := by
  have hpn := pickNext_emails (clearExpiredLimits st.pool st.now) model st.now
  unfold attemptPrologue resolveAccount getTokenForAccount getProjectForAccount
  repeat' split
  all_goals simp_all [clearExpiredLimits, doSleep]
  all_goals repeat' split
  all_goals simp_all [clearExpiredLimits, doSleep]

theorem classifyThrown_frame (model : String) (e : DispatchError) (st : DispatchState) :
    ((classifyThrown model e st).2.dispatches = st.dispatches) ∧
    ((classifyThrown model e st).2.pool.emails = st.pool.emails) ∧
    ((classifyThrown model e st).2.yielded = st.yielded) ∧
    ((classifyThrown model e st).2.attempts = st.attempts) ∧
    ((classifyThrown model e st).2.nextFetch = st.nextFetch) := by
  have h1 := pickNext_emails st.pool model st.now
  have h2 := pickNext_emails st.pool model (st.now + 1000)
  unfold classifyThrown
  repeat' split
  all_goals simp_all [doSleep]

end Antigravity

namespace Antigravity

theorem msgAttempt_frame (fb : Bool) (oracle : List FetchResult) (model : String)
    (st : DispatchState) :
    ((msgAttempt fb oracle model st).2.dispatches = st.dispatches) ∧
    ((msgAttempt fb oracle model st).2.pool.emails = st.pool.emails) ∧
    ((msgAttempt fb oracle model st).2.yielded = st.yielded) ∧
    ((msgAttempt fb oracle model st).2.attempts = st.attempts + 1) ∧
    ((msgAttempt fb oracle model st).2.nextFetch ≤ st.nextFetch + 3) := by
  unfold msgAttempt
  rcases hP : attemptPrologue fb model { st with attempts := st.attempts + 1 }
    with ⟨pout, st2⟩
  obtain ⟨p1, p2, p3, p4, p5, p6⟩ := attemptPrologue_frame fb model
    { st with attempts := st.attempts + 1 }
  rw [hP] at p1 p2 p3 p4 p5 p6
  simp only at p1 p2 p3 p4 p5 p6
  cases pout with
  | proceed email tok proj =>
    simp only [hP]
    rcases hL : msgEndpointLoop oracle tok email model false none
        ANTIGRAVITY_ENDPOINT_FALLBACKS st2 with ⟨lout, st3⟩
    obtain ⟨l1, l2, l3, l4, l5⟩ := msgEndpointLoop_frame oracle tok email model
      ANTIGRAVITY_ENDPOINT_FALLBACKS false none st2
    rw [hL] at l1 l2 l3 l4 l5
    simp only [ANTIGRAVITY_ENDPOINT_FALLBACKS, List.length_cons, List.length_nil,
      Bool.false_eq_true, if_false] at l5
    cases lout with
    | success i =>
      simp only [hL]
      exact ⟨l1.trans p1, l2.trans p2, l3.trans p3, l4.trans p4, by omega⟩
    | thrown e =>
      simp only [hL]
      obtain ⟨c1, c2, c3, c4, c5⟩ := classifyThrown_frame model e st3
      refine ⟨c1.trans (l1.trans p1), c2.trans (l2.trans p2),
        c3.trans (l3.trans p3), by rw [c4, l4, p4], by omega⟩
    | fellThrough =>
      simp only [hL]
      exact ⟨l1.trans p1, l2.trans p2, l3.trans p3, l4.trans p4, by omega⟩
  | continueLoop =>
    simp only [hP]
    exact ⟨p1, p2, p3, p4, by omega⟩
  | fallbackTo fm =>
    simp only [hP]
    exact ⟨p1, p2, p3, p4, by omega⟩
  | fatal e =>
    simp only [hP]
    exact ⟨p1, p2, p3, p4, by omega⟩

theorem msgLoop_frame (fb : Bool) (oracle : List FetchResult) (model : String) :
    ∀ (fuel : Nat) (st : DispatchState),
    ((msgLoop fb oracle model fuel st).2.dispatches = st.dispatches) ∧
    ((msgLoop fb oracle model fuel st).2.pool.emails = st.pool.emails) ∧
    ((msgLoop fb oracle model fuel st).2.yielded = st.yielded) ∧
    ((msgLoop fb oracle model fuel st).2.attempts ≤ st.attempts + fuel) ∧
    ((msgLoop fb oracle model fuel st).2.nextFetch ≤ st.nextFetch + 3 * fuel) := by
  intro fuel
  induction fuel with
  | zero => intro st; simp [msgLoop]
  | succ n ih =>
    intro st
    unfold msgLoop
    rcases hA : msgAttempt fb oracle model st with ⟨aout, st2⟩
    obtain ⟨a1, a2, a3, a4, a5⟩ := msgAttempt_frame fb oracle model st
    rw [hA] at a1 a2 a3 a4 a5
    simp only at a1 a2 a3 a4 a5
    cases aout with
    | done v =>
      simp only [hA]
      exact ⟨a1, a2, a3, by omega, by omega⟩
    | nextAttempt =>
      simp only [hA]
      obtain ⟨i1, i2, i3, i4, i5⟩ := ih st2
      exact ⟨i1.trans a1, i2.trans a2, i3.trans a3, by omega, by omega⟩
    | fallbackTo fm =>
      simp only [hA]
      exact ⟨a1, a2, a3, by omega, by omega⟩
    | fatal e =>
      simp only [hA]
      exact ⟨a1, a2, a3, by omega, by omega⟩

theorem strAttempt_frame (fb : Bool) (oracle : List FetchResult) (model : String)
    (st : DispatchState) :
    ((strAttempt fb oracle model st).2.dispatches = st.dispatches) ∧
    ((strAttempt fb oracle model st).2.pool.emails = st.pool.emails) ∧
    ((strAttempt fb oracle model st).2.attempts = st.attempts + 1) ∧
    ((strAttempt fb oracle model st).2.nextFetch ≤ st.nextFetch + 11) := by
  unfold strAttempt
  rcases hP : attemptPrologue fb model { st with attempts := st.attempts + 1 }
    with ⟨pout, st2⟩
  obtain ⟨p1, p2, p3, p4, p5, p6⟩ := attemptPrologue_frame fb model
    { st with attempts := st.attempts + 1 }
  rw [hP] at p1 p2 p3 p4 p5 p6
  simp only at p1 p2 p3 p4 p5 p6
  cases pout with
  | proceed email tok proj =>
    simp only [hP]
    rcases hL : strEndpointLoop oracle tok email model false none
        ANTIGRAVITY_ENDPOINT_FALLBACKS st2 with ⟨lout, st3⟩
    obtain ⟨l1, l2, l3, l4⟩ := strEndpointLoop_frame oracle tok email model
      ANTIGRAVITY_ENDPOINT_FALLBACKS false none st2
    rw [hL] at l1 l2 l3 l4
    simp only [ANTIGRAVITY_ENDPOINT_FALLBACKS, List.length_cons, List.length_nil,
      Bool.false_eq_true, if_false] at l4
    cases lout with
    | success i =>
      simp only [hL]
      exact ⟨l1.trans p1, l2.trans p2, l3.trans p4, by omega⟩
    | thrown e =>
      simp only [hL]
      obtain ⟨c1, c2, c3, c4, c5⟩ := classifyThrown_frame model e st3
      refine ⟨c1.trans (l1.trans p1), c2.trans (l2.trans p2),
        by rw [c4, l3, p4], by omega⟩
    | fellThrough =>
      simp only [hL]
      exact ⟨l1.trans p1, l2.trans p2, l3.trans p4, by omega⟩
  | continueLoop =>
    simp only [hP]
    exact ⟨p1, p2, p4, by omega⟩
  | fallbackTo fm =>
    simp only [hP]
    exact ⟨p1, p2, p4, by omega⟩
  | fatal e =>
    simp only [hP]
    exact ⟨p1, p2, p4, by omega⟩

theorem strLoop_frame (fb : Bool) (oracle : List FetchResult) (model : String) :
    ∀ (fuel : Nat) (st : DispatchState),
    ((strLoop fb oracle model fuel st).2.dispatches = st.dispatches) ∧
    ((strLoop fb oracle model fuel st).2.pool.emails = st.pool.emails) ∧
    ((strLoop fb oracle model fuel st).2.attempts ≤ st.attempts + fuel) ∧
    ((strLoop fb oracle model fuel st).2.nextFetch ≤ st.nextFetch + 11 * fuel) := by
  intro fuel
  induction fuel with
  | zero => intro st; simp [strLoop]
  | succ n ih =>
    intro st
    unfold strLoop
    rcases hA : strAttempt fb oracle model st with ⟨aout, st2⟩
    obtain ⟨a1, a2, a3, a4⟩ := strAttempt_frame fb oracle model st
    rw [hA] at a1 a2 a3 a4
    simp only at a1 a2 a3 a4
    cases aout with
    | done v =>
      simp only [hA]
      exact ⟨a1, a2, by omega, by omega⟩
    | nextAttempt =>
      simp only [hA]
      obtain ⟨i1, i2, i3, i4⟩ := ih st2
      exact ⟨i1.trans a1, i2.trans a2, by omega, by omega⟩
    | fallbackTo fm =>
      simp only [hA]
      exact ⟨a1, a2, by omega, by omega⟩
    | fatal e =>
      simp only [hA]
      exact ⟨a1, a2, by omega, by omega⟩

end Antigravity


namespace Antigravity

theorem attemptPrologue_fallbackTo (fb : Bool) (model : String) (st : DispatchState)
    (fm : String) (h : (attemptPrologue fb model st).1 = .fallbackTo fm) :
    fb = true ∧ getFallbackModel model = some fm := by
  unfold attemptPrologue at h
  simp only at h
  repeat' split at h
  all_goals simp_all

end Antigravity

namespace Antigravity

theorem msgAttempt_fallbackTo (fb : Bool) (oracle : List FetchResult)
    (model : String) (st : DispatchState) (fm : String)
    (h : (msgAttempt fb oracle model st).1 = .fallbackTo fm) :
    fb = true ∧ getFallbackModel model = some fm := by
  unfold msgAttempt at h
  simp only at h
  rcases hP : attemptPrologue fb model { st with attempts := st.attempts + 1 }
    with ⟨pout, st2⟩
  rw [hP] at h
  cases pout with
  | proceed email tok proj =>
    dsimp only at h
    rcases hL : msgEndpointLoop oracle tok email model false none
        ANTIGRAVITY_ENDPOINT_FALLBACKS st2 with ⟨lout, st3⟩
    rw [hL] at h
    cases lout with
    | success i => simp at h
    | thrown e =>
      simp only at h
      unfold classifyThrown at h
      repeat' split at h
      all_goals simp_all
    | fellThrough => simp at h
  | continueLoop => simp at h
  | fallbackTo fm2 =>
    obtain rfl : fm2 = fm := by simpa using h
    exact attemptPrologue_fallbackTo fb model _ fm2 (by rw [hP])
  | fatal e => simp at h

theorem strAttempt_fallbackTo (fb : Bool) (oracle : List FetchResult)
    (model : String) (st : DispatchState) (fm : String)
    (h : (strAttempt fb oracle model st).1 = .fallbackTo fm) :
    fb = true ∧ getFallbackModel model = some fm := by
  unfold strAttempt at h
  simp only at h
  rcases hP : attemptPrologue fb model { st with attempts := st.attempts + 1 }
    with ⟨pout, st2⟩
  rw [hP] at h
  cases pout with
  | proceed email tok proj =>
    dsimp only at h
    rcases hL : strEndpointLoop oracle tok email model false none
        ANTIGRAVITY_ENDPOINT_FALLBACKS st2 with ⟨lout, st3⟩
    rw [hL] at h
    cases lout with
    | success i => simp at h
    | thrown e =>
      simp only at h
      unfold classifyThrown at h
      repeat' split at h
      all_goals simp_all
    | fellThrough => simp at h
  | continueLoop => simp at h
  | fallbackTo fm2 =>
    obtain rfl : fm2 = fm := by simpa using h
    exact attemptPrologue_fallbackTo fb model _ fm2 (by rw [hP])
  | fatal e => simp at h

theorem msgLoop_fallbackTo (fb : Bool) (oracle : List FetchResult) (model : String) :
    ∀ (fuel : Nat) (st : DispatchState) (fm : String),
      (msgLoop fb oracle model fuel st).1 = .fallbackTo fm →
      fb = true ∧ getFallbackModel model = some fm := by
  intro fuel
  induction fuel with
  | zero => intro st fm h; simp [msgLoop] at h
  | succ n ih =>
    intro st fm h
    unfold msgLoop at h
    rcases hA : msgAttempt fb oracle model st with ⟨aout, st2⟩
    rw [hA] at h
    cases aout with
    | done v => simp at h
    | nextAttempt => exact ih st2 fm h
    | fallbackTo fm2 =>
      obtain rfl : fm2 = fm := by simpa using h
      exact msgAttempt_fallbackTo fb oracle model st fm2 (by rw [hA])
    | fatal e => simp at h

theorem strLoop_fallbackTo (fb : Bool) (oracle : List FetchResult) (model : String) :
    ∀ (fuel : Nat) (st : DispatchState) (fm : String),
      (strLoop fb oracle model fuel st).1 = .fallbackTo fm →
      fb = true ∧ getFallbackModel model = some fm := by
  intro fuel
  induction fuel with
  | zero => intro st fm h; simp [strLoop] at h
  | succ n ih =>
    intro st fm h
    unfold strLoop at h
    rcases hA : strAttempt fb oracle model st with ⟨aout, st2⟩
    rw [hA] at h
    cases aout with
    | done v => simp at h
    | nextAttempt => exact ih st2 fm h
    | fallbackTo fm2 =>
      obtain rfl : fm2 = fm := by simpa using h
      exact strAttempt_fallbackTo fb oracle model st fm2 (by rw [hA])
    | fatal e => simp at h

end Antigravity

namespace Antigravity

theorem sendMessageNF_frame (oracle : List FetchResult) (model : String)
    (st : DispatchState) :
    ((sendMessageNF oracle model st).2.dispatches = st.dispatches ++ [(model, false)]) ∧
    ((sendMessageNF oracle model st).2.pool.emails = st.pool.emails) ∧
    ((sendMessageNF oracle model st).2.attempts ≤ st.attempts + maxAttempts st.pool) ∧
    ((sendMessageNF oracle model st).2.nextFetch
        ≤ st.nextFetch + maxAttempts st.pool *
            (ANTIGRAVITY_ENDPOINT_FALLBACKS.length + 1)) := by
  unfold sendMessageNF
  simp only
  rcases hL : msgLoop false oracle model
      (maxAttempts st.pool)
      { st with dispatches := st.dispatches ++ [(model, false)] } with ⟨lres, st2⟩
  obtain ⟨l1, l2, l3, l4, l5⟩ := msgLoop_frame false oracle model (maxAttempts st.pool)
    { st with dispatches := st.dispatches ++ [(model, false)] }
  rw [hL] at l1 l2 l3 l4 l5
  simp only at l1 l2 l3 l4 l5
  have hlen : ANTIGRAVITY_ENDPOINT_FALLBACKS.length + 1 = 3 := by
    simp [ANTIGRAVITY_ENDPOINT_FALLBACKS]
  cases lres <;> simp only [hL] <;>
    exact ⟨l1, l2, by omega, by rw [hlen]; omega⟩

theorem sendMessage_frame (fb : Bool) (oracle : List FetchResult) (model : String)
    (st : DispatchState) :
    (((sendMessage fb oracle model st).2.dispatches = st.dispatches ++ [(model, fb)]) ∨
      (∃ fm, getFallbackModel model = some fm ∧ fb = true ∧
        (sendMessage fb oracle model st).2.dispatches
          = st.dispatches ++ [(model, true), (fm, false)])) ∧
    ((sendMessage fb oracle model st).2.attempts
        ≤ st.attempts + 2 * maxAttempts st.pool) ∧
    ((sendMessage fb oracle model st).2.nextFetch
        ≤ st.nextFetch + 2 * (maxAttempts st.pool *
            (ANTIGRAVITY_ENDPOINT_FALLBACKS.length + 1))) := by
  cases fb with
  | false =>
    obtain ⟨n1, n2, n3, n4⟩ := sendMessageNF_frame oracle model st
    unfold sendMessage
    simp only [Bool.false_eq_true, if_false]
    exact ⟨Or.inl n1, by omega, by omega⟩
  | true =>
    unfold sendMessage
    simp only [if_true]
    rcases hL : msgLoop true oracle model
        (maxAttempts st.pool)
        { st with dispatches := st.dispatches ++ [(model, true)] } with ⟨lres, st2⟩
    obtain ⟨l1, l2, l3, l4, l5⟩ := msgLoop_frame true oracle model (maxAttempts st.pool)
      { st with dispatches := st.dispatches ++ [(model, true)] }
    rw [hL] at l1 l2 l3 l4 l5
    simp only at l1 l2 l3 l4 l5
    have hmax : maxAttempts st2.pool = maxAttempts st.pool := by
      unfold maxAttempts
      rw [l2]
    have hlen : ANTIGRAVITY_ENDPOINT_FALLBACKS.length + 1 = 3 := by
      simp [ANTIGRAVITY_ENDPOINT_FALLBACKS]
    cases lres with
    | done v => simp only [hL]; exact ⟨Or.inl l1, by omega, by rw [hlen]; omega⟩
    | fatal e => simp only [hL]; exact ⟨Or.inl l1, by omega, by rw [hlen]; omega⟩
    | fallbackTo fm =>
      simp only [hL]
      obtain ⟨-, hmap⟩ := msgLoop_fallbackTo true oracle model (maxAttempts st.pool)
        { st with dispatches := st.dispatches ++ [(model, true)] } fm (by rw [hL])
      obtain ⟨n1, n2, n3, n4⟩ := sendMessageNF_frame oracle fm st2
      refine ⟨Or.inr ⟨fm, hmap, by simp, ?_⟩, ?_, ?_⟩
      · rw [n1, l1]
        simp
      · rw [hmax] at n3
        omega
      · rw [hmax, hlen] at n4
        rw [hlen]
        omega
    | exhausted =>
      cases hfm : getFallbackModel model with
      | none => simp only [hL, hfm]; exact ⟨Or.inl l1, by omega, by rw [hlen]; omega⟩
      | some fm =>
        simp only [hL, hfm]
        obtain ⟨n1, n2, n3, n4⟩ := sendMessageNF_frame oracle fm st2
        refine ⟨Or.inr ⟨fm, rfl, by simp, ?_⟩, ?_, ?_⟩
        · rw [n1, l1]
          simp
        · rw [hmax] at n3
          omega
        · rw [hmax, hlen] at n4
          rw [hlen]
          omega

end Antigravity

namespace Antigravity

theorem sendMessageStreamNF_frame (oracle : List FetchResult) (model : String)
    (st : DispatchState) :
    ((sendMessageStreamNF oracle model st).2.dispatches
        = st.dispatches ++ [(model, false)]) ∧
    ((sendMessageStreamNF oracle model st).2.pool.emails = st.pool.emails) ∧
    ((sendMessageStreamNF oracle model st).2.attempts
        ≤ st.attempts + maxAttempts st.pool) ∧
    ((sendMessageStreamNF oracle model st).2.nextFetch
        ≤ st.nextFetch + maxAttempts st.pool *
            (5 * ANTIGRAVITY_ENDPOINT_FALLBACKS.length + 1)) := by
  unfold sendMessageStreamNF
  simp only
  rcases hL : strLoop false oracle model
      (maxAttempts st.pool)
      { st with dispatches := st.dispatches ++ [(model, false)] } with ⟨lres, st2⟩
  obtain ⟨l1, l2, l3, l4⟩ := strLoop_frame false oracle model (maxAttempts st.pool)
    { st with dispatches := st.dispatches ++ [(model, false)] }
  rw [hL] at l1 l2 l3 l4
  simp only at l1 l2 l3 l4
  have hlen : 5 * ANTIGRAVITY_ENDPOINT_FALLBACKS.length + 1 = 11 := by
    simp [ANTIGRAVITY_ENDPOINT_FALLBACKS]
  cases lres <;> simp only [hL] <;>
    exact ⟨l1, l2, by omega, by rw [hlen]; omega⟩

theorem sendMessageStream_frame (fb : Bool) (oracle : List FetchResult)
    (model : String) (st : DispatchState) :
    (((sendMessageStream fb oracle model st).2.dispatches
        = st.dispatches ++ [(model, fb)]) ∨
      (∃ fm, getFallbackModel model = some fm ∧ fb = true ∧
        (sendMessageStream fb oracle model st).2.dispatches
          = st.dispatches ++ [(model, true), (fm, false)])) ∧
    ((sendMessageStream fb oracle model st).2.attempts
        ≤ st.attempts + 2 * maxAttempts st.pool) ∧
    ((sendMessageStream fb oracle model st).2.nextFetch
        ≤ st.nextFetch + 2 * (maxAttempts st.pool *
            (5 * ANTIGRAVITY_ENDPOINT_FALLBACKS.length + 1))) := by
  cases fb with
  | false =>
    obtain ⟨n1, n2, n3, n4⟩ := sendMessageStreamNF_frame oracle model st
    unfold sendMessageStream
    simp only [Bool.false_eq_true, if_false]
    exact ⟨Or.inl n1, by omega, by omega⟩
  | true =>
    unfold sendMessageStream
    simp only [if_true]
    rcases hL : strLoop true oracle model
        (maxAttempts st.pool)
        { st with dispatches := st.dispatches ++ [(model, true)] } with ⟨lres, st2⟩
    obtain ⟨l1, l2, l3, l4⟩ := strLoop_frame true oracle model (maxAttempts st.pool)
      { st with dispatches := st.dispatches ++ [(model, true)] }
    rw [hL] at l1 l2 l3 l4
    simp only at l1 l2 l3 l4
    have hmax : maxAttempts st2.pool = maxAttempts st.pool := by
      unfold maxAttempts
      rw [l2]
    have hlen : 5 * ANTIGRAVITY_ENDPOINT_FALLBACKS.length + 1 = 11 := by
      simp [ANTIGRAVITY_ENDPOINT_FALLBACKS]
    cases lres with
    | done v => simp only [hL]; exact ⟨Or.inl l1, by omega, by rw [hlen]; omega⟩
    | fatal e => simp only [hL]; exact ⟨Or.inl l1, by omega, by rw [hlen]; omega⟩
    | fallbackTo fm =>
      simp only [hL]
      obtain ⟨-, hmap⟩ := strLoop_fallbackTo true oracle model (maxAttempts st.pool)
        { st with dispatches := st.dispatches ++ [(model, true)] } fm (by rw [hL])
      obtain ⟨n1, n2, n3, n4⟩ := sendMessageStreamNF_frame oracle fm st2
      refine ⟨Or.inr ⟨fm, hmap, by simp, ?_⟩, ?_, ?_⟩
      · rw [n1, l1]
        simp
      · rw [hmax] at n3
        omega
      · rw [hmax, hlen] at n4
        rw [hlen]
        omega
    | exhausted =>
      cases hfm : getFallbackModel model with
      | none => simp only [hL, hfm]; exact ⟨Or.inl l1, by omega, by rw [hlen]; omega⟩
      | some fm =>
        simp only [hL, hfm]
        obtain ⟨n1, n2, n3, n4⟩ := sendMessageStreamNF_frame oracle fm st2
        refine ⟨Or.inr ⟨fm, rfl, by simp, ?_⟩, ?_, ?_⟩
        · rw [n1, l1]
          simp
        · rw [hmax] at n3
          omega
        · rw [hmax, hlen] at n4
          rw [hlen]
          omega

end Antigravity

namespace Antigravity

/-- Terminal error events of the canonical stream. -/
def isErrorEvent : CanonEvent → Bool
  | .error_event _ => true
  | _ => false

/-- A well-formed adapter output: non-empty, error events only in terminal
position, and ending with `message_stop` or a terminal error. This is the
guarantee the spec states for the SSE stream adapter. -/
def wfStream (evs : List CanonEvent) : Bool :=
  !evs.isEmpty &&
  evs.dropLast.all (fun e => !isErrorEvent e) &&
  (match evs.getLast? with
   | some .message_stop => true
   | some (.error_event _) => true
   | _ => false)

/-- Well-formedness of a streamed body. -/
def bodyWF : StreamBody → Bool
  | .events evs => wfStream evs
  | .empty => true

/-- Well-formedness of an oracle entry. -/
def fetchWF : FetchResult → Bool
  | .ok b => bodyWF b
  | _ => true

theorem oracle_getD_wf (oracle : List FetchResult)
    (h : oracle.all fetchWF = true) (i : Nat) :
    fetchWF (oracle.getD i .netErr) = true := by
  rcases hg : oracle[i]? with _ | r
  · simp [List.getD, hg, fetchWF]
  · have hm : r ∈ oracle := by
      obtain ⟨hlt, rfl⟩ := List.getElem?_eq_some_iff.mp hg
      exact List.getElem_mem hlt
    simp [List.getD, hg]
    exact List.all_eq_true.mp h r hm

theorem wfStream_fallback : wfStream emitEmptyResponseFallback = true := by decide

set_option maxHeartbeats 2000000 in
theorem emptyRetryLoop_yield (oracle : List FetchResult) (tok : Nat)
    (email model ep : String) (hor : oracle.all fetchWF = true) :
    ∀ (left curIdx : Nat) (curBody : StreamBody) (st : DispatchState),
      bodyWF curBody = true → curIdx + 1 = st.nextFetch →
      (∃ i evs,
        (emptyRetryLoop oracle tok email model ep left curIdx curBody st).1
            = .success i ∧
        wfStream evs = true ∧
        (emptyRetryLoop oracle tok email model ep left curIdx curBody st).2.yielded
            = st.yielded ++ evs.map (fun e => (i, e)) ∧
        i + 1 = (emptyRetryLoop oracle tok email model ep left curIdx curBody st).2.nextFetch) ∨
      ((∃ e, (emptyRetryLoop oracle tok email model ep left curIdx curBody st).1
            = .thrown e) ∧
        (emptyRetryLoop oracle tok email model ep left curIdx curBody st).2.yielded
            = st.yielded) := by
  intro left
  induction left with
  | zero =>
    intro curIdx curBody st hbw hcur
    cases curBody with
    | events evs =>
      left
      exact ⟨curIdx, evs, by simp [emptyRetryLoop, streamSSEResponse, yieldEvents],
        hbw, by simp [emptyRetryLoop, streamSSEResponse, yieldEvents],
        by simp [emptyRetryLoop, streamSSEResponse, yieldEvents]; omega⟩
    | empty =>
      left
      exact ⟨curIdx, emitEmptyResponseFallback,
        by simp [emptyRetryLoop, streamSSEResponse, yieldEvents],
        wfStream_fallback,
        by simp [emptyRetryLoop, streamSSEResponse, yieldEvents],
        by simp [emptyRetryLoop, streamSSEResponse, yieldEvents]; omega⟩
  | succ left' ih =>
    intro curIdx curBody st hbw hcur
    cases curBody with
    | events evs =>
      left
      exact ⟨curIdx, evs, by simp [emptyRetryLoop, streamSSEResponse, yieldEvents],
        hbw, by simp [emptyRetryLoop, streamSSEResponse, yieldEvents],
        by simp [emptyRetryLoop, streamSSEResponse, yieldEvents]; omega⟩
    | empty =>
      rw [show emptyRetryLoop oracle tok email model ep (left' + 1) curIdx .empty st
          = emptyRetryLoop oracle tok email model ep (left' + 1) curIdx .empty st from rfl]
      simp only [emptyRetryLoop, streamSSEResponse, doSleep, doFetch]
      cases hres : oracle.getD st.nextFetch .netErr with
      | ok b =>
        simp only [hres]
        have hbw2 : bodyWF b = true := by
          have := oracle_getD_wf oracle hor st.nextFetch
          rw [hres] at this
          exact this
        exact ih st.nextFetch b _ hbw2 (by simp)
      | netErr =>
        simp only [hres]
        right
        exact ⟨⟨.netError, rfl⟩, by trivial⟩
      | httpErr status rms =>
        simp only [hres]
        by_cases h429 : (status == 429)
        · simp only [h429, if_true]
          right
          exact ⟨⟨.rateLimitedDuringRetry, rfl⟩, by trivial⟩
        · simp only [h429, if_false]
          by_cases h401 : (status == 401)
          · simp only [h401, if_true]
            right
            exact ⟨⟨.authInvalidDuringRetry, rfl⟩, by trivial⟩
          · simp only [h401, if_false]
            by_cases h500 : (500 ≤ status)
            · simp only [h500, if_true, doSleep, doFetch]
              cases hres2 : oracle.getD (st.nextFetch + 1) .netErr with
              | ok b2 =>
                simp only [hres2]
                have hbw2 : bodyWF b2 = true := by
                  have := oracle_getD_wf oracle hor (st.nextFetch + 1)
                  rw [hres2] at this
                  exact this
                exact ih (st.nextFetch + 1) b2 _ hbw2 (by simp)
              | netErr =>
                simp only [hres2]
                right
                exact ⟨⟨.netError, rfl⟩, by trivial⟩
              | httpErr s2 r2 =>
                simp only [hres2]
                right
                exact ⟨⟨.emptyRetryFailed s2, rfl⟩, by trivial⟩
            · simp only [h500, if_false]
              right
              exact ⟨⟨.emptyRetryFailed status, rfl⟩, by trivial⟩

end Antigravity

namespace Antigravity

set_option maxHeartbeats 2000000 in
theorem strEndpointLoop_yield (oracle : List FetchResult) (tok : Nat)
    (email model : String) (hor : oracle.all fetchWF = true) :
    ∀ (eps : List String) (ro : Bool) (le : Option DispatchError)
      (st : DispatchState),
      (∃ i evs,
        (strEndpointLoop oracle tok email model ro le eps st).1 = .success i ∧
        wfStream evs = true ∧
        (strEndpointLoop oracle tok email model ro le eps st).2.yielded
            = st.yielded ++ evs.map (fun e => (i, e)) ∧
        i + 1 = (strEndpointLoop oracle tok email model ro le eps st).2.nextFetch) ∨
      (((strEndpointLoop oracle tok email model ro le eps st).2.yielded
            = st.yielded) ∧
        (∀ i, (strEndpointLoop oracle tok email model ro le eps st).1
            ≠ .success i)) := by
  intro eps
  induction eps with
  | nil =>
    intro ro le st
    right
    cases le <;> simp [strEndpointLoop]
  | cons ep rest ih =>
    intro ro le st
    unfold strEndpointLoop
    simp only [doFetch]
    cases hres : oracle.getD st.nextFetch .netErr with
    | netErr =>
      simp only [hres]
      exact ih ro (some .netError) _
    | ok body =>
      simp only [hres]
      have hbw : bodyWF body = true := by
        have := oracle_getD_wf oracle hor st.nextFetch
        rw [hres] at this
        exact this
      rcases hE : emptyRetryLoop oracle tok email model ep
          MAX_EMPTY_RESPONSE_RETRIES st.nextFetch body
          { st with nextFetch := st.nextFetch + 1,
                    calls := st.calls ++ [⟨ep, tok, true⟩] } with ⟨eout, st2⟩
      have hY := emptyRetryLoop_yield oracle tok email model ep hor
        MAX_EMPTY_RESPONSE_RETRIES st.nextFetch body
        { st with nextFetch := st.nextFetch + 1,
                  calls := st.calls ++ [⟨ep, tok, true⟩] } hbw (by simp)
      rw [hE] at hY
      simp only at hY
      rcases hY with ⟨i, evs, h1, h2, h3, h4⟩ | ⟨⟨e, hthr⟩, hyld⟩
      · subst h1
        simp only [hE]
        left
        exact ⟨i, evs, rfl, h2, h3, h4⟩
      · subst hthr
        simp only [hE]
        cases hcl : (isRateLimitError e || isEmptyResponseError e) with
        | true =>
          simp only [hcl, if_true]
          right
          exact ⟨hyld, by intro i h; cases h⟩
        | false =>
          simp only [hcl, Bool.false_eq_true, if_false]
          rcases ih ro (some e) st2 with ⟨i, evs, g1, g2, g3, g4⟩ | ⟨g1, g2⟩
          · left
            exact ⟨i, evs, g1, g2, by rw [g3, hyld], g4⟩
          · right
            exact ⟨by rw [g1, hyld], g2⟩
    | httpErr status resetMs =>
      simp only [hres]
      by_cases h401 : (status == 401)
      · simp only [h401, if_true]
        exact ih ro le _
      · simp only [h401, if_false]
        by_cases h429 : (status == 429)
        · simp only [h429, if_true]
          rcases hrms : resetMs with _ | r
          · simp only
            rcases ro with _ | _
            · simp only [Bool.false_eq_true, if_false, doSleep]
              cases hres2 : oracle.getD (st.nextFetch + 1) .netErr with
              | ok b =>
                simp only [hres2]
                cases b with
                | empty =>
                  simp only [streamSSEResponse]
                  right
                  exact ⟨by trivial, by intro i h; cases h⟩
                | events evs =>
                  simp only [streamSSEResponse]
                  left
                  refine ⟨st.nextFetch + 1, evs, rfl, ?_, by simp [yieldEvents], by simp [yieldEvents]⟩
                  have := oracle_getD_wf oracle hor (st.nextFetch + 1)
                  rw [hres2] at this
                  exact this
              | netErr =>
                simp only [hres2]
                exact ih true (some .netError) _
              | httpErr s2 rms2 =>
                simp only [hres2]
                right
                exact ⟨by trivial, by intro i h; cases h⟩
            · simp only [if_true]
              right
              exact ⟨by trivial, by intro i h; cases h⟩
          · cases hlong : decide (DEFAULT_COOLDOWN_MS < r) with
            | true =>
              simp only [hlong, if_true]
              right
              exact ⟨by trivial, by intro i h; cases h⟩
            | false =>
              simp only [hlong, Bool.false_eq_true, if_false]
              rcases ro with _ | _
              · simp only [Bool.false_eq_true, if_false, doSleep]
                cases hres2 : oracle.getD (st.nextFetch + 1) .netErr with
                | ok b =>
                  simp only [hres2]
                  cases b with
                  | empty =>
                    simp only [streamSSEResponse]
                    right
                    exact ⟨by trivial, by intro i h; cases h⟩
                  | events evs =>
                    simp only [streamSSEResponse]
                    left
                    refine ⟨st.nextFetch + 1, evs, rfl, ?_, by simp [yieldEvents], by simp [yieldEvents]⟩
                    have := oracle_getD_wf oracle hor (st.nextFetch + 1)
                    rw [hres2] at this
                    exact this
                | netErr =>
                  simp only [hres2]
                  exact ih true (some .netError) _
                | httpErr s2 rms2 =>
                  simp only [hres2]
                  right
                  exact ⟨by trivial, by intro i h; cases h⟩
              · simp only [if_true]
                right
                exact ⟨by trivial, by intro i h; cases h⟩
        · simp only [h429, if_false]
          by_cases h500 : (500 ≤ status)
          · simp only [h500, if_true, doSleep]
            exact ih ro (some (.apiError status)) _
          · simp only [h500, if_false]
            exact ih ro (some (.apiError status)) _

end Antigravity

namespace Antigravity

theorem strAttempt_yield (fb : Bool) (oracle : List FetchResult) (model : String)
    (st : DispatchState) (hor : oracle.all fetchWF = true) :
    (∃ v evs,
      (strAttempt fb oracle model st).1 = .done v ∧
      wfStream evs = true ∧
      (strAttempt fb oracle model st).2.yielded
          = st.yielded ++ evs.map (fun e => (v, e)) ∧
      v + 1 = (strAttempt fb oracle model st).2.nextFetch) ∨
    (((strAttempt fb oracle model st).2.yielded = st.yielded) ∧
      (∀ v, (strAttempt fb oracle model st).1 ≠ .done v)) := by
  unfold strAttempt
  simp only
  rcases hP : attemptPrologue fb model { st with attempts := st.attempts + 1 }
    with ⟨pout, st2⟩
  obtain ⟨p1, p2, p3, p4, p5, p6⟩ := attemptPrologue_frame fb model
    { st with attempts := st.attempts + 1 }
  rw [hP] at p1 p2 p3 p4 p5 p6
  simp only at p1 p2 p3 p4 p5 p6
  cases pout with
  | proceed email tok proj =>
    simp only [hP]
    rcases hL : strEndpointLoop oracle tok email model false none
        ANTIGRAVITY_ENDPOINT_FALLBACKS st2 with ⟨lout, st3⟩
    have hY := strEndpointLoop_yield oracle tok email model hor
      ANTIGRAVITY_ENDPOINT_FALLBACKS false none st2
    rw [hL] at hY
    simp only at hY
    rcases hY with ⟨i, evs, h1, h2, h3, h4⟩ | ⟨h1, h2⟩
    · subst h1
      simp only [hL]
      left
      exact ⟨i, evs, rfl, h2, by rw [h3, p3], h4⟩
    · cases lout with
      | success i => exact absurd rfl (h2 i)
      | thrown e =>
        simp only [hL]
        obtain ⟨c1, c2, c3, c4, c5⟩ := classifyThrown_frame model e st3
        rcases hC : classifyThrown model e st3 with ⟨cout, st4⟩
        rw [hC] at c1 c2 c3 c4 c5
        simp only at c1 c2 c3 c4 c5
        right
        refine ⟨by rw [c3, h1, p3], ?_⟩
        intro v hv
        unfold classifyThrown at hC
        repeat' split at hC
        all_goals (rw [← hC] at hv; simp_all)
      | fellThrough =>
        simp only [hL]
        right
        exact ⟨by rw [h1, p3], by intro v hv; cases hv⟩
  | continueLoop =>
    simp only [hP]
    right
    exact ⟨p3, by intro v hv; cases hv⟩
  | fallbackTo fm =>
    simp only [hP]
    right
    exact ⟨p3, by intro v hv; cases hv⟩
  | fatal e =>
    simp only [hP]
    right
    exact ⟨p3, by intro v hv; cases hv⟩

theorem strLoop_yield (fb : Bool) (oracle : List FetchResult) (model : String)
    (hor : oracle.all fetchWF = true) :
    ∀ (fuel : Nat) (st : DispatchState),
    (∃ v evs,
      (strLoop fb oracle model fuel st).1 = .done v ∧
      wfStream evs = true ∧
      (strLoop fb oracle model fuel st).2.yielded
          = st.yielded ++ evs.map (fun e => (v, e)) ∧
      v + 1 = (strLoop fb oracle model fuel st).2.nextFetch) ∨
    (((strLoop fb oracle model fuel st).2.yielded = st.yielded) ∧
      (∀ v, (strLoop fb oracle model fuel st).1 ≠ .done v)) := by
  intro fuel
  induction fuel with
  | zero =>
    intro st
    right
    simp [strLoop]
  | succ n ih =>
    intro st
    unfold strLoop
    rcases hA : strAttempt fb oracle model st with ⟨aout, st2⟩
    have hY := strAttempt_yield fb oracle model st hor
    rw [hA] at hY
    simp only at hY
    rcases hY with ⟨v, evs, h1, h2, h3, h4⟩ | ⟨h1, h2⟩
    · subst h1
      simp only [hA]
      left
      exact ⟨v, evs, rfl, h2, h3, h4⟩
    · cases aout with
      | done v => exact absurd rfl (h2 v)
      | nextAttempt =>
        simp only [hA]
        rcases ih st2 with ⟨v, evs, g1, g2, g3, g4⟩ | ⟨g1, g2⟩
        · left
          exact ⟨v, evs, g1, g2, by rw [g3, h1], g4⟩
        · right
          exact ⟨by rw [g1, h1], g2⟩
      | fallbackTo fm =>
        simp only [hA]
        right
        exact ⟨h1, by intro v hv; cases hv⟩
      | fatal e =>
        simp only [hA]
        right
        exact ⟨h1, by intro v hv; cases hv⟩

theorem sendMessageStreamNF_yield (oracle : List FetchResult) (model : String)
    (st : DispatchState) (hor : oracle.all fetchWF = true) :
    (∃ v evs,
      (sendMessageStreamNF oracle model st).1 = .ok v ∧
      wfStream evs = true ∧
      (sendMessageStreamNF oracle model st).2.yielded
          = st.yielded ++ evs.map (fun e => (v, e)) ∧
      v + 1 = (sendMessageStreamNF oracle model st).2.nextFetch) ∨
    (((sendMessageStreamNF oracle model st).2.yielded = st.yielded) ∧
      (∀ v, (sendMessageStreamNF oracle model st).1 ≠ .ok v)) := by
  unfold sendMessageStreamNF
  simp only
  rcases hL : strLoop false oracle model (maxAttempts st.pool)
      { st with dispatches := st.dispatches ++ [(model, false)] } with ⟨lres, st2⟩
  have hY := strLoop_yield false oracle model hor (maxAttempts st.pool)
    { st with dispatches := st.dispatches ++ [(model, false)] }
  rw [hL] at hY
  simp only at hY
  rcases hY with ⟨v, evs, h1, h2, h3, h4⟩ | ⟨h1, h2⟩
  · subst h1
    simp only [hL]
    left
    exact ⟨v, evs, rfl, h2, h3, h4⟩
  · cases lres with
    | done v => exact absurd rfl (h2 v)
    | fallbackTo fm =>
      simp only [hL]
      right
      exact ⟨h1, by intro v hv; cases hv⟩
    | fatal e =>
      simp only [hL]
      right
      exact ⟨h1, by intro v hv; cases hv⟩
    | exhausted =>
      simp only [hL]
      right
      exact ⟨h1, by intro v hv; cases hv⟩

theorem sendMessageStream_yield (fb : Bool) (oracle : List FetchResult)
    (model : String) (st : DispatchState) (hor : oracle.all fetchWF = true) :
    (∃ v evs,
      (sendMessageStream fb oracle model st).1 = .ok v ∧
      wfStream evs = true ∧
      (sendMessageStream fb oracle model st).2.yielded
          = st.yielded ++ evs.map (fun e => (v, e)) ∧
      v + 1 = (sendMessageStream fb oracle model st).2.nextFetch) ∨
    (((sendMessageStream fb oracle model st).2.yielded = st.yielded) ∧
      (∀ v, (sendMessageStream fb oracle model st).1 ≠ .ok v)) := by
  cases fb with
  | false =>
    unfold sendMessageStream
    simp only [Bool.false_eq_true, if_false]
    exact sendMessageStreamNF_yield oracle model st hor
  | true =>
    unfold sendMessageStream
    simp only [if_true]
    rcases hL : strLoop true oracle model (maxAttempts st.pool)
        { st with dispatches := st.dispatches ++ [(model, true)] } with ⟨lres, st2⟩
    have hY := strLoop_yield true oracle model hor (maxAttempts st.pool)
      { st with dispatches := st.dispatches ++ [(model, true)] }
    rw [hL] at hY
    simp only at hY
    rcases hY with ⟨v, evs, h1, h2, h3, h4⟩ | ⟨h1, h2⟩
    · subst h1
      simp only [hL]
      left
      exact ⟨v, evs, rfl, h2, h3, h4⟩
    · cases lres with
      | done v => exact absurd rfl (h2 v)
      | fallbackTo fm =>
        simp only [hL]
        rcases sendMessageStreamNF_yield oracle fm st2 hor
          with ⟨v, evs, g1, g2, g3, g4⟩ | ⟨g1, g2⟩
        · left
          exact ⟨v, evs, g1, g2, by rw [g3, h1], g4⟩
        · right
          exact ⟨by rw [g1, h1], g2⟩
      | fatal e =>
        simp only [hL]
        right
        exact ⟨h1, by intro v hv; cases hv⟩
      | exhausted =>
        cases hfm : getFallbackModel model with
        | none =>
          simp only [hL, hfm]
          right
          exact ⟨h1, by intro v hv; cases hv⟩
        | some fm =>
          simp only [hL, hfm]
          rcases sendMessageStreamNF_yield oracle fm st2 hor
            with ⟨v, evs, g1, g2, g3, g4⟩ | ⟨g1, g2⟩
          · left
            exact ⟨v, evs, g1, g2, by rw [g3, h1], g4⟩
          · right
            exact ⟨by rw [g1, h1], g2⟩

end Antigravity

namespace Antigravity

theorem attemptPrologue_allLimited (fb : Bool) (model : String) (st : DispatchState)
    (hav : (getAvailableAccounts (clearExpiredLimits st.pool st.now) model st.now).isEmpty = true)
    (hall : isAllRateLimited (clearExpiredLimits st.pool st.now) model st.now = true) :
    (getMinWaitTimeMs (clearExpiredLimits st.pool st.now) model st.now
        ≤ MAX_WAIT_BEFORE_ERROR_MS →
      (attemptPrologue fb model st).1 = .continueLoop ∧
      (attemptPrologue fb model st).2.sleeps = st.sleeps ++
        [getMinWaitTimeMs (clearExpiredLimits st.pool st.now) model st.now + 500] ∧
      (attemptPrologue fb model st).2.nextFetch = st.nextFetch ∧
      (attemptPrologue fb model st).2.calls = st.calls) ∧
    (∀ fm, MAX_WAIT_BEFORE_ERROR_MS
        < getMinWaitTimeMs (clearExpiredLimits st.pool st.now) model st.now →
      fb = true → getFallbackModel model = some fm →
      (attemptPrologue fb model st).1 = .fallbackTo fm ∧
      (attemptPrologue fb model st).2.nextFetch = st.nextFetch ∧
      (attemptPrologue fb model st).2.calls = st.calls ∧
      (attemptPrologue fb model st).2.sleeps = st.sleeps) ∧
    (MAX_WAIT_BEFORE_ERROR_MS
        < getMinWaitTimeMs (clearExpiredLimits st.pool st.now) model st.now →
      (fb = false ∨ getFallbackModel model = none) →
      (attemptPrologue fb model st).1
          = .fatal (.resourceExhausted model
              (getMinWaitTimeMs (clearExpiredLimits st.pool st.now) model st.now)) ∧
      (attemptPrologue fb model st).2.nextFetch = st.nextFetch ∧
      (attemptPrologue fb model st).2.calls = st.calls ∧
      (attemptPrologue fb model st).2.sleeps = st.sleeps) := by
  unfold attemptPrologue
  simp only [hav, if_true, hall, doSleep]
  refine ⟨?_, ?_, ?_⟩
  · intro hle
    rw [if_neg (by omega)]
    simp [clearExpiredLimits]
  · intro fm hgt hfb hmap
    subst hfb
    rw [if_pos hgt]
    simp [hmap]
  · intro hgt hor
    rw [if_pos hgt]
    rcases hor with rfl | hnone
    · simp
    · cases fb <;> simp [hnone]

end Antigravity

namespace Antigravity

theorem msgAttempt_allLimited (fb : Bool) (oracle : List FetchResult)
    (model : String) (st : DispatchState)
    (hav : (getAvailableAccounts (clearExpiredLimits st.pool st.now) model st.now).isEmpty = true)
    (hall : isAllRateLimited (clearExpiredLimits st.pool st.now) model st.now = true) :
    (getMinWaitTimeMs (clearExpiredLimits st.pool st.now) model st.now
        ≤ MAX_WAIT_BEFORE_ERROR_MS →
      (msgAttempt fb oracle model st).1 = .nextAttempt ∧
      (msgAttempt fb oracle model st).2.sleeps = st.sleeps ++
        [getMinWaitTimeMs (clearExpiredLimits st.pool st.now) model st.now + 500] ∧
      (msgAttempt fb oracle model st).2.nextFetch = st.nextFetch ∧
      (msgAttempt fb oracle model st).2.calls = st.calls) ∧
    (∀ fm, MAX_WAIT_BEFORE_ERROR_MS
        < getMinWaitTimeMs (clearExpiredLimits st.pool st.now) model st.now →
      fb = true → getFallbackModel model = some fm →
      (msgAttempt fb oracle model st).1 = .fallbackTo fm ∧
      (msgAttempt fb oracle model st).2.nextFetch = st.nextFetch ∧
      (msgAttempt fb oracle model st).2.calls = st.calls) ∧
    (MAX_WAIT_BEFORE_ERROR_MS
        < getMinWaitTimeMs (clearExpiredLimits st.pool st.now) model st.now →
      (fb = false ∨ getFallbackModel model = none) →
      (msgAttempt fb oracle model st).1
          = .fatal (.resourceExhausted model
              (getMinWaitTimeMs (clearExpiredLimits st.pool st.now) model st.now)) ∧
      (msgAttempt fb oracle model st).2.nextFetch = st.nextFetch ∧
      (msgAttempt fb oracle model st).2.calls = st.calls) := by
  obtain ⟨hwait, hfallb, hfatal⟩ := attemptPrologue_allLimited fb model
    { st with attempts := st.attempts + 1 } hav hall
  unfold msgAttempt
  simp only
  rcases hP : attemptPrologue fb model { st with attempts := st.attempts + 1 }
    with ⟨pout, st2⟩
  rw [hP] at hwait hfallb hfatal
  simp only at hwait hfallb hfatal
  refine ⟨?_, ?_, ?_⟩
  · intro hle
    obtain ⟨h1, h2, h3, h4⟩ := hwait hle
    subst h1
    simp only [hP]
    exact ⟨by trivial, h2, h3, h4⟩
  · intro fm hgt hfb hmap
    obtain ⟨h1, h2, h3, h4⟩ := hfallb fm hgt hfb hmap
    subst h1
    simp only [hP]
    exact ⟨by trivial, h2, h3⟩
  · intro hgt hor
    obtain ⟨h1, h2, h3, h4⟩ := hfatal hgt hor
    subst h1
    simp only [hP]
    exact ⟨by trivial, h2, h3⟩

theorem strAttempt_allLimited (fb : Bool) (oracle : List FetchResult)
    (model : String) (st : DispatchState)
    (hav : (getAvailableAccounts (clearExpiredLimits st.pool st.now) model st.now).isEmpty = true)
    (hall : isAllRateLimited (clearExpiredLimits st.pool st.now) model st.now = true) :
    (getMinWaitTimeMs (clearExpiredLimits st.pool st.now) model st.now
        ≤ MAX_WAIT_BEFORE_ERROR_MS →
      (strAttempt fb oracle model st).1 = .nextAttempt ∧
      (strAttempt fb oracle model st).2.sleeps = st.sleeps ++
        [getMinWaitTimeMs (clearExpiredLimits st.pool st.now) model st.now + 500] ∧
      (strAttempt fb oracle model st).2.nextFetch = st.nextFetch ∧
      (strAttempt fb oracle model st).2.calls = st.calls) ∧
    (∀ fm, MAX_WAIT_BEFORE_ERROR_MS
        < getMinWaitTimeMs (clearExpiredLimits st.pool st.now) model st.now →
      fb = true → getFallbackModel model = some fm →
      (strAttempt fb oracle model st).1 = .fallbackTo fm ∧
      (strAttempt fb oracle model st).2.nextFetch = st.nextFetch ∧
      (strAttempt fb oracle model st).2.calls = st.calls) ∧
    (MAX_WAIT_BEFORE_ERROR_MS
        < getMinWaitTimeMs (clearExpiredLimits st.pool st.now) model st.now →
      (fb = false ∨ getFallbackModel model = none) →
      (strAttempt fb oracle model st).1
          = .fatal (.resourceExhausted model
              (getMinWaitTimeMs (clearExpiredLimits st.pool st.now) model st.now)) ∧
      (strAttempt fb oracle model st).2.nextFetch = st.nextFetch ∧
      (strAttempt fb oracle model st).2.calls = st.calls) := by
  obtain ⟨hwait, hfallb, hfatal⟩ := attemptPrologue_allLimited fb model
    { st with attempts := st.attempts + 1 } hav hall
  unfold strAttempt
  simp only
  rcases hP : attemptPrologue fb model { st with attempts := st.attempts + 1 }
    with ⟨pout, st2⟩
  rw [hP] at hwait hfallb hfatal
  simp only at hwait hfallb hfatal
  refine ⟨?_, ?_, ?_⟩
  · intro hle
    obtain ⟨h1, h2, h3, h4⟩ := hwait hle
    subst h1
    simp only [hP]
    exact ⟨by trivial, h2, h3, h4⟩
  · intro fm hgt hfb hmap
    obtain ⟨h1, h2, h3, h4⟩ := hfallb fm hgt hfb hmap
    subst h1
    simp only [hP]
    exact ⟨by trivial, h2, h3⟩
  · intro hgt hor
    obtain ⟨h1, h2, h3, h4⟩ := hfatal hgt hor
    subst h1
    simp only [hP]
    exact ⟨by trivial, h2, h3⟩

end Antigravity

namespace Antigravity

theorem classifyThrown_rateLimit (model : String) (e : DispatchError)
    (st : DispatchState) (h : isRateLimitError e = true) :
    (classifyThrown model e st).1 = .nextAttempt := by
  unfold classifyThrown
  rw [if_pos h]

theorem jsOr_pos (o : Option Nat) (d : Nat) (hd : 0 < d) : 0 < jsOr o d := by
  unfold jsOr
  rcases o with _ | r
  · exact hd
  · match r with
    | 0 => exact hd
    | r + 1 => exact Nat.succ_pos r

theorem jsOr_some_pos (n d : Nat) (hn : 0 < n) : jsOr (some n) d = n := by
  unfold jsOr
  match n, hn with
  | n + 1, _ => rfl

set_option maxHeartbeats 1000000 in
theorem msgEndpointLoop_429_spec (oracle : List FetchResult) (tok : Nat)
    (email model ep : String) (rest : List String)
    (le : Option DispatchError) (st : DispatchState) :
    (∀ r, oracle.getD st.nextFetch .netErr = .httpErr 429 (some r) →
      DEFAULT_COOLDOWN_MS < r →
      ∀ ro,
      ((msgEndpointLoop oracle tok email model ro le (ep :: rest) st).1
          = .thrown .quotaExhausted ∧
        (msgEndpointLoop oracle tok email model ro le (ep :: rest) st).2.nextFetch
          = st.nextFetch + 1 ∧
        (msgEndpointLoop oracle tok email model ro le (ep :: rest) st).2.pool.limits.lookup
            (email, model) = some (st.now + r) ∧
        isFree (msgEndpointLoop oracle tok email model ro le (ep :: rest) st).2.pool
            email model st.now = false)) ∧
    (∀ rms, oracle.getD st.nextFetch .netErr = .httpErr 429 rms →
      (∀ r, rms = some r → r ≤ DEFAULT_COOLDOWN_MS) →
      (∀ b, oracle.getD (st.nextFetch + 1) .netErr = .ok b →
        (msgEndpointLoop oracle tok email model false le (ep :: rest) st).1
            = .success (st.nextFetch + 1) ∧
        (msgEndpointLoop oracle tok email model false le (ep :: rest) st).2.nextFetch
            = st.nextFetch + 2 ∧
        (msgEndpointLoop oracle tok email model false le (ep :: rest) st).2.calls
            = st.calls ++ [⟨ep, tok, isThinkingModel (some model)⟩,
                ⟨ep, tok, isThinkingModel (some model)⟩] ∧
        (msgEndpointLoop oracle tok email model false le (ep :: rest) st).2.sleeps
            = st.sleeps ++ [jsOr rms DEFAULT_COOLDOWN_MS]) ∧
      (∀ rms2, oracle.getD (st.nextFetch + 1) .netErr = .httpErr 429 rms2 →
        (msgEndpointLoop oracle tok email model false le (ep :: rest) st).1
            = .thrown .rateLimitedAfterRetry ∧
        (msgEndpointLoop oracle tok email model false le (ep :: rest) st).2.nextFetch
            = st.nextFetch + 2 ∧
        (msgEndpointLoop oracle tok email model false le (ep :: rest) st).2.calls
            = st.calls ++ [⟨ep, tok, isThinkingModel (some model)⟩,
                ⟨ep, tok, isThinkingModel (some model)⟩] ∧
        (msgEndpointLoop oracle tok email model false le (ep :: rest) st).2.pool.limits.lookup
            (email, model)
          = some (st.now + jsOr rms DEFAULT_COOLDOWN_MS +
              jsOr rms2 (jsOr rms DEFAULT_COOLDOWN_MS))) ∧
      ((msgEndpointLoop oracle tok email model true le (ep :: rest) st).1
          = .thrown .rateLimited ∧
        (msgEndpointLoop oracle tok email model true le (ep :: rest) st).2.nextFetch
          = st.nextFetch + 1 ∧
        (msgEndpointLoop oracle tok email model true le (ep :: rest) st).2.pool.limits.lookup
            (email, model) = some (st.now + jsOr rms DEFAULT_COOLDOWN_MS))) := by
  constructor
  · intro r hres hlong ro
    unfold msgEndpointLoop
    simp only [doFetch, hres]
    have h401 : ((429 : Nat) == 401) = false := by decide
    have h429 : ((429 : Nat) == 429) = true := by decide
    simp only [h401, Bool.false_eq_true, if_false, h429, if_true,
      hlong, decide_eq_true_eq, if_pos]
    have hjs : jsOr (some r) DEFAULT_COOLDOWN_MS = r := by
      unfold jsOr
      match r, hlong with
      | r + 1, _ => rfl
    refine ⟨by trivial, by trivial, ?_, ?_⟩
    · simp [markRateLimited, hjs, List.lookup]
    · simp [isFree, markRateLimited, hjs, List.lookup]
      unfold DEFAULT_COOLDOWN_MS at hlong
      omega
  · intro rms hres hshort
    have h401 : ((429 : Nat) == 401) = false := by decide
    have h429 : ((429 : Nat) == 429) = true := by decide
    have hcond : ∀ r, rms = some r → decide (DEFAULT_COOLDOWN_MS < r) = false := by
      intro r hr
      have := hshort r hr
      simp
      omega
    refine ⟨?_, ?_, ?_⟩
    · intro b hok2
      unfold msgEndpointLoop
      rcases rms with _ | r
      · simp only [doFetch, hres, h401, Bool.false_eq_true, if_false, h429, if_true,
          doSleep, hok2]
        exact ⟨by trivial, by trivial, by simp, by trivial⟩
      · simp only [doFetch, hres, h401, Bool.false_eq_true, if_false, h429, if_true,
          hcond r rfl, doSleep, hok2]
        exact ⟨by trivial, by trivial, by simp, by trivial⟩
    · intro rms2 hres2
      unfold msgEndpointLoop
      rcases rms with _ | r
      · simp only [doFetch, hres, h401, Bool.false_eq_true, if_false, h429, if_true,
          doSleep, hres2]
        refine ⟨by trivial, by trivial, by simp, ?_⟩
        simp [markRateLimited, List.lookup]
        exact jsOr_some_pos _ _ (jsOr_pos _ _ (jsOr_pos _ _ (by decide)))
      · simp only [doFetch, hres, h401, Bool.false_eq_true, if_false, h429, if_true,
          hcond r rfl, doSleep, hres2]
        refine ⟨by trivial, by trivial, by simp, ?_⟩
        simp [markRateLimited, List.lookup]
        exact jsOr_some_pos _ _ (jsOr_pos _ _ (jsOr_pos _ _ (by decide)))
    · unfold msgEndpointLoop
      rcases rms with _ | r
      · simp only [doFetch, hres, h401, Bool.false_eq_true, if_false, h429, if_true]
        refine ⟨by trivial, by trivial, ?_⟩
        simp [markRateLimited, List.lookup]
        exact jsOr_some_pos _ _ (jsOr_pos _ _ (by decide))
      · simp only [doFetch, hres, h401, Bool.false_eq_true, if_false, h429, if_true,
          hcond r rfl]
        refine ⟨by trivial, by trivial, ?_⟩
        simp [markRateLimited, List.lookup]
        exact jsOr_some_pos _ _ (jsOr_pos _ _ (by decide))

end Antigravity

namespace Antigravity

set_option maxHeartbeats 1000000 in
theorem strEndpointLoop_429_spec (oracle : List FetchResult) (tok : Nat)
    (email model ep : String) (rest : List String)
    (le : Option DispatchError) (st : DispatchState) :
    (∀ r, oracle.getD st.nextFetch .netErr = .httpErr 429 (some r) →
      DEFAULT_COOLDOWN_MS < r →
      ∀ ro,
      ((strEndpointLoop oracle tok email model ro le (ep :: rest) st).1
          = .thrown .quotaExhausted ∧
        (strEndpointLoop oracle tok email model ro le (ep :: rest) st).2.nextFetch
          = st.nextFetch + 1 ∧
        (strEndpointLoop oracle tok email model ro le (ep :: rest) st).2.pool.limits.lookup
            (email, model) = some (st.now + r) ∧
        isFree (strEndpointLoop oracle tok email model ro le (ep :: rest) st).2.pool
            email model st.now = false)) ∧
    (∀ rms, oracle.getD st.nextFetch .netErr = .httpErr 429 rms →
      (∀ r, rms = some r → r ≤ DEFAULT_COOLDOWN_MS) →
      (∀ evs, oracle.getD (st.nextFetch + 1) .netErr = .ok (.events evs) →
        (strEndpointLoop oracle tok email model false le (ep :: rest) st).1
            = .success (st.nextFetch + 1) ∧
        (strEndpointLoop oracle tok email model false le (ep :: rest) st).2.nextFetch
            = st.nextFetch + 2 ∧
        (strEndpointLoop oracle tok email model false le (ep :: rest) st).2.calls
            = st.calls ++ [⟨ep, tok, true⟩, ⟨ep, tok, true⟩] ∧
        (strEndpointLoop oracle tok email model false le (ep :: rest) st).2.sleeps
            = st.sleeps ++ [jsOr rms DEFAULT_COOLDOWN_MS]) ∧
      (∀ rms2, oracle.getD (st.nextFetch + 1) .netErr = .httpErr 429 rms2 →
        (strEndpointLoop oracle tok email model false le (ep :: rest) st).1
            = .thrown .rateLimitedAfterRetry ∧
        (strEndpointLoop oracle tok email model false le (ep :: rest) st).2.nextFetch
            = st.nextFetch + 2 ∧
        (strEndpointLoop oracle tok email model false le (ep :: rest) st).2.calls
            = st.calls ++ [⟨ep, tok, true⟩, ⟨ep, tok, true⟩] ∧
        (strEndpointLoop oracle tok email model false le (ep :: rest) st).2.pool.limits.lookup
            (email, model)
          = some (st.now + jsOr rms DEFAULT_COOLDOWN_MS +
              jsOr rms2 (jsOr rms DEFAULT_COOLDOWN_MS))) ∧
      ((strEndpointLoop oracle tok email model true le (ep :: rest) st).1
          = .thrown .rateLimited ∧
        (strEndpointLoop oracle tok email model true le (ep :: rest) st).2.nextFetch
          = st.nextFetch + 1 ∧
        (strEndpointLoop oracle tok email model true le (ep :: rest) st).2.pool.limits.lookup
            (email, model) = some (st.now + jsOr rms DEFAULT_COOLDOWN_MS))) := by
  constructor
  · intro r hres hlong ro
    unfold strEndpointLoop
    simp only [doFetch, hres]
    have h401 : ((429 : Nat) == 401) = false := by decide
    have h429 : ((429 : Nat) == 429) = true := by decide
    simp only [h401, Bool.false_eq_true, if_false, h429, if_true,
      hlong, decide_eq_true_eq, if_pos]
    have hjs : jsOr (some r) DEFAULT_COOLDOWN_MS = r := by
      unfold jsOr
      match r, hlong with
      | r + 1, _ => rfl
    refine ⟨by trivial, by trivial, ?_, ?_⟩
    · simp [markRateLimited, hjs, List.lookup]
    · simp [isFree, markRateLimited, hjs, List.lookup]
      unfold DEFAULT_COOLDOWN_MS at hlong
      omega
  · intro rms hres hshort
    have h401 : ((429 : Nat) == 401) = false := by decide
    have h429 : ((429 : Nat) == 429) = true := by decide
    have hcond : ∀ r, rms = some r → decide (DEFAULT_COOLDOWN_MS < r) = false := by
      intro r hr
      have := hshort r hr
      simp
      omega
    refine ⟨?_, ?_, ?_⟩
    · intro evs hok2
      unfold strEndpointLoop
      rcases rms with _ | r
      · simp only [doFetch, hres, h401, Bool.false_eq_true, if_false, h429, if_true,
          doSleep, hok2, streamSSEResponse, yieldEvents]
        exact ⟨by trivial, by trivial, by simp, by trivial⟩
      · simp only [doFetch, hres, h401, Bool.false_eq_true, if_false, h429, if_true,
          hcond r rfl, doSleep, hok2, streamSSEResponse, yieldEvents]
        exact ⟨by trivial, by trivial, by simp, by trivial⟩
    · intro rms2 hres2
      unfold strEndpointLoop
      rcases rms with _ | r
      · simp only [doFetch, hres, h401, Bool.false_eq_true, if_false, h429, if_true,
          doSleep, hres2]
        refine ⟨by trivial, by trivial, by simp, ?_⟩
        simp [markRateLimited, List.lookup]
        exact jsOr_some_pos _ _ (jsOr_pos _ _ (jsOr_pos _ _ (by decide)))
      · simp only [doFetch, hres, h401, Bool.false_eq_true, if_false, h429, if_true,
          hcond r rfl, doSleep, hres2]
        refine ⟨by trivial, by trivial, by simp, ?_⟩
        simp [markRateLimited, List.lookup]
        exact jsOr_some_pos _ _ (jsOr_pos _ _ (jsOr_pos _ _ (by decide)))
    · unfold strEndpointLoop
      rcases rms with _ | r
      · simp only [doFetch, hres, h401, Bool.false_eq_true, if_false, h429, if_true]
        refine ⟨by trivial, by trivial, ?_⟩
        simp [markRateLimited, List.lookup]
        exact jsOr_some_pos _ _ (jsOr_pos _ _ (by decide))
      · simp only [doFetch, hres, h401, Bool.false_eq_true, if_false, h429, if_true,
          hcond r rfl]
        refine ⟨by trivial, by trivial, ?_⟩
        simp [markRateLimited, List.lookup]
        exact jsOr_some_pos _ _ (jsOr_pos _ _ (by decide))

end Antigravity

namespace Antigravity

theorem msgEndpointLoop_401_step (oracle : List FetchResult) (tok : Nat)
    (email model ep : String) (rest : List String) (ro : Bool)
    (le : Option DispatchError) (st : DispatchState) (rms : Option Nat)
    (hres : oracle.getD st.nextFetch .netErr = .httpErr 401 rms) :
    msgEndpointLoop oracle tok email model ro le (ep :: rest) st
      = msgEndpointLoop oracle tok email model ro le rest
          { st with nextFetch := st.nextFetch + 1,
                    calls := st.calls ++ [⟨ep, tok, isThinkingModel (some model)⟩],
                    cache := clearProjectCache (clearTokenCache st.cache email) email } := by
  conv_lhs => rw [msgEndpointLoop]
  have h401 : ((401 : Nat) == 401) = true := by decide
  simp only [doFetch, hres, h401, if_true]

theorem strEndpointLoop_401_step (oracle : List FetchResult) (tok : Nat)
    (email model ep : String) (rest : List String) (ro : Bool)
    (le : Option DispatchError) (st : DispatchState) (rms : Option Nat)
    (hres : oracle.getD st.nextFetch .netErr = .httpErr 401 rms) :
    strEndpointLoop oracle tok email model ro le (ep :: rest) st
      = strEndpointLoop oracle tok email model ro le rest
          { st with nextFetch := st.nextFetch + 1,
                    calls := st.calls ++ [⟨ep, tok, true⟩],
                    cache := clearProjectCache (clearTokenCache st.cache email) email } := by
  conv_lhs => rw [strEndpointLoop]
  have h401 : ((401 : Nat) == 401) = true := by decide
  simp only [doFetch, hres, h401, if_true]

theorem clearTokenCache_lookup (c : TokenCache) (email : String) :
    (clearTokenCache c email).tokens.lookup email = none := by
  unfold clearTokenCache
  simp only
  induction c.tokens with
  | nil => rfl
  | cons h t ih =>
    by_cases he : (h.1 != email) = true
    · simp only [List.filter_cons, he, if_true]
      rw [List.lookup_cons]
      have : (email == h.1) = false := by
        simp at he ⊢
        exact fun hh => he hh.symm
      rw [this]
      exact ih
    · simp only [List.filter_cons, he]
      simp at he
      simp [he] at ih ⊢
      exact ih

theorem clearProjectCache_tokens (c : TokenCache) (email : String) :
    (clearProjectCache c email).tokens = c.tokens := rfl

theorem getTokenForAccount_fresh (c : TokenCache) (email : String) (fresh : Nat)
    (h : c.tokens.lookup email = none) :
    (getTokenForAccount c email fresh).1 = fresh ∧
    (getTokenForAccount c email fresh).2.2 = fresh + 1 := by
  unfold getTokenForAccount
  rw [h]
  exact ⟨rfl, rfl⟩

end Antigravity

namespace Antigravity

theorem emptyRetryLoop_events (oracle : List FetchResult) (tok : Nat)
    (email model ep : String) (left curIdx : Nat) (evs : List CanonEvent)
    (st : DispatchState) :
    emptyRetryLoop oracle tok email model ep left curIdx (.events evs) st
      = (.success curIdx, yieldEvents curIdx evs st) := by
  cases left <;> rfl

set_option maxHeartbeats 1000000 in
theorem emptyRetryLoop_exhaust (oracle : List FetchResult) (tok : Nat)
    (email model ep : String) (curIdx : Nat) (st : DispatchState)
    (h1 : oracle.getD st.nextFetch .netErr = .ok .empty)
    (h2 : oracle.getD (st.nextFetch + 1) .netErr = .ok .empty) :
    emptyRetryLoop oracle tok email model ep MAX_EMPTY_RESPONSE_RETRIES curIdx
        .empty st
      = (.success (st.nextFetch + 1),
          { st with
            nextFetch := st.nextFetch + 2,
            calls := st.calls ++ [⟨ep, tok, true⟩, ⟨ep, tok, true⟩],
            now := st.now + 1500,
            sleeps := st.sleeps ++ [500, 1000],
            yielded := st.yielded ++
              emitEmptyResponseFallback.map (fun e => (st.nextFetch + 1, e)) }) := by
  show emptyRetryLoop oracle tok email model ep 2 curIdx .empty st = _
  rw [show (2 : Nat) = 1 + 1 from rfl]
  conv_lhs => rw [emptyRetryLoop]
  simp only [streamSSEResponse, doSleep, doFetch, h1, MAX_EMPTY_RESPONSE_RETRIES]
  conv_lhs => rw [emptyRetryLoop]
  simp only [streamSSEResponse, doSleep, doFetch, h2, MAX_EMPTY_RESPONSE_RETRIES]
  conv_lhs => rw [emptyRetryLoop]
  simp only [streamSSEResponse, yieldEvents]
  norm_num

end Antigravity

namespace Antigravity

set_option maxHeartbeats 1000000 in
theorem strEndpointLoop_empty_exhaust (oracle : List FetchResult) (tok : Nat)
    (email model ep : String) (rest : List String) (ro : Bool)
    (le : Option DispatchError) (st : DispatchState)
    (h0 : oracle.getD st.nextFetch .netErr = .ok .empty)
    (h1 : oracle.getD (st.nextFetch + 1) .netErr = .ok .empty)
    (h2 : oracle.getD (st.nextFetch + 2) .netErr = .ok .empty) :
    strEndpointLoop oracle tok email model ro le (ep :: rest) st
      = (.success (st.nextFetch + 2),
          { st with
            nextFetch := st.nextFetch + 3,
            calls := st.calls ++ [⟨ep, tok, true⟩, ⟨ep, tok, true⟩, ⟨ep, tok, true⟩],
            now := st.now + 1500,
            sleeps := st.sleeps ++ [500, 1000],
            yielded := st.yielded ++
              emitEmptyResponseFallback.map (fun e => (st.nextFetch + 2, e)) }) := by
  conv_lhs => rw [strEndpointLoop]
  simp only [doFetch, h0]
  rw [emptyRetryLoop_exhaust oracle tok email model ep st.nextFetch
    { st with nextFetch := st.nextFetch + 1, calls := st.calls ++ [⟨ep, tok, true⟩] }
    (by simpa using h1) (by simpa using h2)]
  simp

end Antigravity

namespace Antigravity

/-- A fresh engine state over a pool of account emails: no rate limits, no
sticky account, empty caches, time zero. -/
def initState (emails : List String) : DispatchState :=
  { pool := { emails := emails, limits := [], sticky := [], rr := 0 }
    cache := { tokens := [], projects := [] }
    now := 0, nextFetch := 0, calls := [], sleeps := [], fresh := 0
    yielded := [], dispatches := [], attempts := 0 }

theorem chunkJsonAux_flatten : ∀ (fuel : Nat) (l : List Char), l.length ≤ fuel →
    (chunkJsonAux fuel l).flatten = l := by
  intro fuel
  induction fuel with
  | zero =>
    intro l hl
    have : l = [] := List.eq_nil_of_length_eq_zero (Nat.le_zero.mp hl)
    simp [this, chunkJsonAux]
  | succ n ih =>
    intro l hl
    match l with
    | [] => simp [chunkJsonAux]
    | h :: t =>
      simp only [chunkJsonAux, List.flatten_cons]
      rw [ih]
      · exact List.take_append_drop _ _
      · simp only [List.length_drop, kiroChunkSize, List.length_cons]
        simp only [List.length_cons] at hl
        omega

theorem chunkJsonAux_len : ∀ (fuel : Nat) (l : List Char),
    ∀ c ∈ chunkJsonAux fuel l, c.length ≤ kiroChunkSize := by
  intro fuel
  induction fuel with
  | zero => intro l c hc; simp [chunkJsonAux] at hc
  | succ n ih =>
    intro l c hc
    match l with
    | [] => simp [chunkJsonAux] at hc
    | h :: t =>
      simp only [chunkJsonAux, List.mem_cons] at hc
      rcases hc with rfl | hc
      · simp [List.length_take, kiroChunkSize]
      · exact ih _ c hc

/-- C9: for an `input_json_delta` handled while a tool block is open,
`streamAnthropicToKiro` emits one `toolUseEvent` per slice of at most eight
characters, carrying the open tool name and id, and the in-order
concatenation of the emitted input chunks is exactly the original
`partial_json` string. -/
theorem c9_tool_input_chunking (pj : List Char) (name toolUseId : String) :
    (∀ e ∈ handleInputJsonDelta pj name toolUseId,
        e.input.length ≤ kiroChunkSize ∧ e.name = name ∧ e.toolUseId = toolUseId) ∧
    ((handleInputJsonDelta pj name toolUseId).map (·.input)).flatten = pj := by
  constructor
  · intro e he
    simp only [handleInputJsonDelta, List.mem_map] at he
    obtain ⟨c, hc, rfl⟩ := he
    exact ⟨chunkJsonAux_len _ _ c hc, rfl, rfl⟩
  · have h2 : (handleInputJsonDelta pj name toolUseId).map (·.input) = chunkJson pj := by
      simp [handleInputJsonDelta, List.map_map, Function.comp_def]
    rw [h2]
    exact chunkJsonAux_flatten _ _ le_rfl

/-- Witness for C9 at a concrete twenty-character input string. -/
theorem c9_tool_input_chunking_witness :
    (((handleInputJsonDelta ("weather now in paris".data) "search" "toolu_1").map
        (·.input)).flatten = "weather now in paris".data) ∧
    ({ name := "search", toolUseId := "toolu_1",
        input := "weather ".data } : ToolUseEvent).input.length
        ≤ kiroChunkSize := by
  have h := c9_tool_input_chunking ("weather now in paris".data) "search" "toolu_1"
  exact ⟨h.2, (h.1 _ (by decide)).1⟩

end Antigravity

namespace Antigravity

/-- Oracle refuting the claimed `N × E` call bound: every attempt sees a 500
at the first endpoint and a short 429 with a failing retry at the second,
so each of the five attempts issues three upstream calls. -/
def cx1oracle : List FetchResult :=
  (List.replicate 5 [FetchResult.httpErr 500 none,
    FetchResult.httpErr 429 (some 1000), FetchResult.httpErr 429 (some 1)]).flatten

/-- C1 counterexample: with three accounts and fallback disabled, a dispatch
issues fifteen upstream calls, exceeding
`max(maxRetries, poolSize+1) × endpoints = 10`, and performs no
fallback dispatch. -/
theorem c1_retry_bound_counterexample :
    (sendMessage false cx1oracle "claude-sonnet-4-5"
        (initState ["a", "b", "c"])).2.nextFetch = 15 ∧
    (sendMessage false cx1oracle "claude-sonnet-4-5"
        (initState ["a", "b", "c"])).2.dispatches = [("claude-sonnet-4-5", false)] ∧
    maxAttempts (initState ["a", "b", "c"]).pool
        * ANTIGRAVITY_ENDPOINT_FALLBACKS.length = 10 ∧
    ¬((sendMessage false cx1oracle "claude-sonnet-4-5"
        (initState ["a", "b", "c"])).2.nextFetch
      ≤ maxAttempts (initState ["a", "b", "c"]).pool
          * ANTIGRAVITY_ENDPOINT_FALLBACKS.length) := by
  refine ⟨by decide, by decide, by decide, by decide⟩

/-- C1 (amended): the attempt loop runs at most
`max(maxRetries, poolSize+1)` iterations per dispatch (at most twice that
with one fallback dispatch), and the number of upstream calls is bounded by
`max(maxRetries, poolSize+1) × (E+1)` for `sendMessage` and by
`max(maxRetries, poolSize+1) × (5E+1)` for `sendMessageStream`, doubled when
a fallback dispatch runs; the claimed `N × E` bound does not hold. -/
theorem c1_retry_bound (fb : Bool) (oracle : List FetchResult) (model : String)
    (st : DispatchState) :
    ((sendMessage fb oracle model st).2.attempts
        ≤ st.attempts + 2 * maxAttempts st.pool) ∧
    ((sendMessageNF oracle model st).2.attempts
        ≤ st.attempts + maxAttempts st.pool) ∧
    ((sendMessage fb oracle model st).2.nextFetch
        ≤ st.nextFetch + 2 * (maxAttempts st.pool *
            (ANTIGRAVITY_ENDPOINT_FALLBACKS.length + 1))) ∧
    ((sendMessageNF oracle model st).2.nextFetch
        ≤ st.nextFetch + maxAttempts st.pool *
            (ANTIGRAVITY_ENDPOINT_FALLBACKS.length + 1)) ∧
    ((sendMessageStream fb oracle model st).2.attempts
        ≤ st.attempts + 2 * maxAttempts st.pool) ∧
    ((sendMessageStreamNF oracle model st).2.attempts
        ≤ st.attempts + maxAttempts st.pool) ∧
    ((sendMessageStream fb oracle model st).2.nextFetch
        ≤ st.nextFetch + 2 * (maxAttempts st.pool *
            (5 * ANTIGRAVITY_ENDPOINT_FALLBACKS.length + 1))) ∧
    ((sendMessageStreamNF oracle model st).2.nextFetch
        ≤ st.nextFetch + maxAttempts st.pool *
            (5 * ANTIGRAVITY_ENDPOINT_FALLBACKS.length + 1)) := by
  obtain ⟨-, m2, m3⟩ := sendMessage_frame fb oracle model st
  obtain ⟨-, -, n3, n4⟩ := sendMessageNF_frame oracle model st
  obtain ⟨-, s2, s3⟩ := sendMessageStream_frame fb oracle model st
  obtain ⟨-, -, t3, t4⟩ := sendMessageStreamNF_frame oracle model st
  exact ⟨m2, n3, m3, n4, s2, t3, s3, t4⟩

/-- C6: the fallback-model hop happens at most once per original request:
any dispatch records either its own model alone, or its model followed by
exactly one fallback dispatch whose `fallbackEnabled` flag is false; no
dispatch list exceeds two entries and every entry after the first carries a
disabled fallback flag. -/
theorem c6_fallback_once (fb : Bool) (oracle : List FetchResult) (model : String)
    (st : DispatchState) (h : st.dispatches = []) :
    (((sendMessage fb oracle model st).2.dispatches = [(model, fb)] ∨
      (∃ fm, getFallbackModel model = some fm ∧ fb = true ∧
        (sendMessage fb oracle model st).2.dispatches
          = [(model, true), (fm, false)])) ∧
      (sendMessage fb oracle model st).2.dispatches.length ≤ 2 ∧
      (∀ p ∈ (sendMessage fb oracle model st).2.dispatches.tail, p.2 = false)) ∧
    (((sendMessageStream fb oracle model st).2.dispatches = [(model, fb)] ∨
      (∃ fm, getFallbackModel model = some fm ∧ fb = true ∧
        (sendMessageStream fb oracle model st).2.dispatches
          = [(model, true), (fm, false)])) ∧
      (sendMessageStream fb oracle model st).2.dispatches.length ≤ 2 ∧
      (∀ p ∈ (sendMessageStream fb oracle model st).2.dispatches.tail, p.2 = false)) := by
  obtain ⟨m1, -, -⟩ := sendMessage_frame fb oracle model st
  obtain ⟨s1, -, -⟩ := sendMessageStream_frame fb oracle model st
  rw [h] at m1 s1
  simp only [List.nil_append] at m1 s1
  constructor
  · rcases m1 with m1 | ⟨fm, hmap, hfb, m1⟩
    · exact ⟨Or.inl m1, by rw [m1]; simp, by rw [m1]; simp⟩
    · exact ⟨Or.inr ⟨fm, hmap, hfb, m1⟩, by rw [m1]; simp, by rw [m1]; simp⟩
  · rcases s1 with s1 | ⟨fm, hmap, hfb, s1⟩
    · exact ⟨Or.inl s1, by rw [s1]; simp, by rw [s1]; simp⟩
    · exact ⟨Or.inr ⟨fm, hmap, hfb, s1⟩, by rw [s1]; simp, by rw [s1]; simp⟩

/-- Witness for C6: a streaming-capable model whose quota run exhausts all
attempts hops to its fallback exactly once, with the fallback flag off. -/
theorem c6_fallback_once_witness :
    ((sendMessage true (List.replicate 40 (FetchResult.httpErr 503 none))
        "gemini-3-flash" (initState ["a"])).2.dispatches.length ≤ 2) ∧
    (∀ p ∈ (sendMessage true (List.replicate 40 (FetchResult.httpErr 503 none))
        "gemini-3-flash" (initState ["a"])).2.dispatches.tail, p.2 = false) := by
  obtain ⟨hmsg, -⟩ := c6_fallback_once true
    (List.replicate 40 (FetchResult.httpErr 503 none)) "gemini-3-flash"
    (initState ["a"]) rfl
  exact ⟨hmsg.2.1, hmsg.2.2⟩

end Antigravity

namespace Antigravity

/-- C5: at the start of an attempt in which every account is rate-limited
for the model, both handlers sleep `minWait + 500` and continue the attempt
loop without any upstream call when the minimum wait is within the 2-minute
ceiling; above the ceiling they hop to the fallback model when enabled and
mapped, and otherwise fail with `RESOURCE_EXHAUSTED`. -/
theorem c5_all_limited_policy :
    (∀ (fb : Bool) (oracle : List FetchResult) (model : String) (st : DispatchState),
      (getAvailableAccounts (clearExpiredLimits st.pool st.now) model st.now).isEmpty = true →
      isAllRateLimited (clearExpiredLimits st.pool st.now) model st.now = true →
      ((getMinWaitTimeMs (clearExpiredLimits st.pool st.now) model st.now
          ≤ MAX_WAIT_BEFORE_ERROR_MS →
        (msgAttempt fb oracle model st).1 = .nextAttempt ∧
        (msgAttempt fb oracle model st).2.sleeps = st.sleeps ++
          [getMinWaitTimeMs (clearExpiredLimits st.pool st.now) model st.now + 500] ∧
        (msgAttempt fb oracle model st).2.nextFetch = st.nextFetch ∧
        (msgAttempt fb oracle model st).2.calls = st.calls) ∧
      (∀ fm, MAX_WAIT_BEFORE_ERROR_MS
          < getMinWaitTimeMs (clearExpiredLimits st.pool st.now) model st.now →
        fb = true → getFallbackModel model = some fm →
        (msgAttempt fb oracle model st).1 = .fallbackTo fm ∧
        (msgAttempt fb oracle model st).2.nextFetch = st.nextFetch ∧
        (msgAttempt fb oracle model st).2.calls = st.calls) ∧
      (MAX_WAIT_BEFORE_ERROR_MS
          < getMinWaitTimeMs (clearExpiredLimits st.pool st.now) model st.now →
        (fb = false ∨ getFallbackModel model = none) →
        (msgAttempt fb oracle model st).1
            = .fatal (.resourceExhausted model
                (getMinWaitTimeMs (clearExpiredLimits st.pool st.now) model st.now)) ∧
        (msgAttempt fb oracle model st).2.nextFetch = st.nextFetch ∧
        (msgAttempt fb oracle model st).2.calls = st.calls))) ∧
    (∀ (fb : Bool) (oracle : List FetchResult) (model : String) (st : DispatchState),
      (getAvailableAccounts (clearExpiredLimits st.pool st.now) model st.now).isEmpty = true →
      isAllRateLimited (clearExpiredLimits st.pool st.now) model st.now = true →
      ((getMinWaitTimeMs (clearExpiredLimits st.pool st.now) model st.now
          ≤ MAX_WAIT_BEFORE_ERROR_MS →
        (strAttempt fb oracle model st).1 = .nextAttempt ∧
        (strAttempt fb oracle model st).2.sleeps = st.sleeps ++
          [getMinWaitTimeMs (clearExpiredLimits st.pool st.now) model st.now + 500] ∧
        (strAttempt fb oracle model st).2.nextFetch = st.nextFetch ∧
        (strAttempt fb oracle model st).2.calls = st.calls) ∧
      (∀ fm, MAX_WAIT_BEFORE_ERROR_MS
          < getMinWaitTimeMs (clearExpiredLimits st.pool st.now) model st.now →
        fb = true → getFallbackModel model = some fm →
        (strAttempt fb oracle model st).1 = .fallbackTo fm ∧
        (strAttempt fb oracle model st).2.nextFetch = st.nextFetch ∧
        (strAttempt fb oracle model st).2.calls = st.calls) ∧
      (MAX_WAIT_BEFORE_ERROR_MS
          < getMinWaitTimeMs (clearExpiredLimits st.pool st.now) model st.now →
        (fb = false ∨ getFallbackModel model = none) →
        (strAttempt fb oracle model st).1
            = .fatal (.resourceExhausted model
                (getMinWaitTimeMs (clearExpiredLimits st.pool st.now) model st.now)) ∧
        (strAttempt fb oracle model st).2.nextFetch = st.nextFetch ∧
        (strAttempt fb oracle model st).2.calls = st.calls))) :=
  ⟨fun fb oracle model st hav hall => msgAttempt_allLimited fb oracle model st hav hall,
   fun fb oracle model st hav hall => strAttempt_allLimited fb oracle model st hav hall⟩

/-- Witness for C5: a pool of two accounts both limited for 45 seconds makes
the engine sleep 45.5 seconds and continue, issuing no upstream call. -/
theorem c5_all_limited_policy_witness :
    (msgAttempt false [] "m"
        { initState ["a", "b"] with
          pool := { emails := ["a", "b"],
                    limits := [(("a", "m"), 45000), (("b", "m"), 46000)],
                    sticky := [], rr := 0 } }).1 = .nextAttempt ∧
    (msgAttempt false [] "m"
        { initState ["a", "b"] with
          pool := { emails := ["a", "b"],
                    limits := [(("a", "m"), 45000), (("b", "m"), 46000)],
                    sticky := [], rr := 0 } }).2.sleeps = [45500] ∧
    (msgAttempt false [] "m"
        { initState ["a", "b"] with
          pool := { emails := ["a", "b"],
                    limits := [(("a", "m"), 45000), (("b", "m"), 46000)],
                    sticky := [], rr := 0 } }).2.nextFetch = 0 := by
  obtain ⟨h1, h2, h3, h4⟩ := (c5_all_limited_policy.1 false [] "m"
    { initState ["a", "b"] with
      pool := { emails := ["a", "b"],
                limits := [(("a", "m"), 45000), (("b", "m"), 46000)],
                sticky := [], rr := 0 } } (by decide) (by decide)).1 (by decide)
  refine ⟨h1, ?_, h3⟩
  rw [h2]
  decide

end Antigravity

namespace Antigravity

/-- C3: in both handlers, a 429 whose parsed reset exceeds the 10-second
cooldown marks the account limited until `now + resetMs`, leaves the
endpoint loop after that single call (the marked account is no longer free
for the model), and the thrown error continues the attempt loop; a 429 with
a short or absent reset sleeps the parsed-or-default wait and re-issues the
same endpoint once per attempt, returning that response on success, and on a
second 429 failure marks the account limited with the retry-parsed or
previous wait and continues the attempt loop; with the per-attempt retry
already used, the account is marked with the wait and the attempt loop
continues. -/
theorem c3_429_handling :
    (∀ (oracle : List FetchResult) (tok : Nat) (email model ep : String)
      (rest : List String) (le : Option DispatchError) (st : DispatchState),
      (∀ r, oracle.getD st.nextFetch .netErr = .httpErr 429 (some r) →
        DEFAULT_COOLDOWN_MS < r →
        ∀ ro,
        ((msgEndpointLoop oracle tok email model ro le (ep :: rest) st).1
            = .thrown .quotaExhausted ∧
          (msgEndpointLoop oracle tok email model ro le (ep :: rest) st).2.nextFetch
            = st.nextFetch + 1 ∧
          (msgEndpointLoop oracle tok email model ro le (ep :: rest) st).2.pool.limits.lookup
              (email, model) = some (st.now + r) ∧
          isFree (msgEndpointLoop oracle tok email model ro le (ep :: rest) st).2.pool
              email model st.now = false)) ∧
      (∀ rms, oracle.getD st.nextFetch .netErr = .httpErr 429 rms →
        (∀ r, rms = some r → r ≤ DEFAULT_COOLDOWN_MS) →
        (∀ b, oracle.getD (st.nextFetch + 1) .netErr = .ok b →
          (msgEndpointLoop oracle tok email model false le (ep :: rest) st).1
              = .success (st.nextFetch + 1) ∧
          (msgEndpointLoop oracle tok email model false le (ep :: rest) st).2.nextFetch
              = st.nextFetch + 2 ∧
          (msgEndpointLoop oracle tok email model false le (ep :: rest) st).2.calls
              = st.calls ++ [⟨ep, tok, isThinkingModel (some model)⟩,
                  ⟨ep, tok, isThinkingModel (some model)⟩] ∧
          (msgEndpointLoop oracle tok email model false le (ep :: rest) st).2.sleeps
              = st.sleeps ++ [jsOr rms DEFAULT_COOLDOWN_MS]) ∧
        (∀ rms2, oracle.getD (st.nextFetch + 1) .netErr = .httpErr 429 rms2 →
          (msgEndpointLoop oracle tok email model false le (ep :: rest) st).1
              = .thrown .rateLimitedAfterRetry ∧
          (msgEndpointLoop oracle tok email model false le (ep :: rest) st).2.nextFetch
              = st.nextFetch + 2 ∧
          (msgEndpointLoop oracle tok email model false le (ep :: rest) st).2.calls
              = st.calls ++ [⟨ep, tok, isThinkingModel (some model)⟩,
                  ⟨ep, tok, isThinkingModel (some model)⟩] ∧
          (msgEndpointLoop oracle tok email model false le (ep :: rest) st).2.pool.limits.lookup
              (email, model)
            = some (st.now + jsOr rms DEFAULT_COOLDOWN_MS +
                jsOr rms2 (jsOr rms DEFAULT_COOLDOWN_MS))) ∧
        ((msgEndpointLoop oracle tok email model true le (ep :: rest) st).1
            = .thrown .rateLimited ∧
          (msgEndpointLoop oracle tok email model true le (ep :: rest) st).2.nextFetch
            = st.nextFetch + 1 ∧
          (msgEndpointLoop oracle tok email model true le (ep :: rest) st).2.pool.limits.lookup
              (email, model) = some (st.now + jsOr rms DEFAULT_COOLDOWN_MS)))) ∧
    (∀ (oracle : List FetchResult) (tok : Nat) (email model ep : String)
      (rest : List String) (le : Option DispatchError) (st : DispatchState),
      (∀ r, oracle.getD st.nextFetch .netErr = .httpErr 429 (some r) →
        DEFAULT_COOLDOWN_MS < r →
        ∀ ro,
        ((strEndpointLoop oracle tok email model ro le (ep :: rest) st).1
            = .thrown .quotaExhausted ∧
          (strEndpointLoop oracle tok email model ro le (ep :: rest) st).2.nextFetch
            = st.nextFetch + 1 ∧
          (strEndpointLoop oracle tok email model ro le (ep :: rest) st).2.pool.limits.lookup
              (email, model) = some (st.now + r) ∧
          isFree (strEndpointLoop oracle tok email model ro le (ep :: rest) st).2.pool
              email model st.now = false)) ∧
      (∀ rms, oracle.getD st.nextFetch .netErr = .httpErr 429 rms →
        (∀ r, rms = some r → r ≤ DEFAULT_COOLDOWN_MS) →
        (∀ evs, oracle.getD (st.nextFetch + 1) .netErr = .ok (.events evs) →
          (strEndpointLoop oracle tok email model false le (ep :: rest) st).1
              = .success (st.nextFetch + 1) ∧
          (strEndpointLoop oracle tok email model false le (ep :: rest) st).2.nextFetch
              = st.nextFetch + 2 ∧
          (strEndpointLoop oracle tok email model false le (ep :: rest) st).2.calls
              = st.calls ++ [⟨ep, tok, true⟩, ⟨ep, tok, true⟩] ∧
          (strEndpointLoop oracle tok email model false le (ep :: rest) st).2.sleeps
              = st.sleeps ++ [jsOr rms DEFAULT_COOLDOWN_MS]) ∧
        (∀ rms2, oracle.getD (st.nextFetch + 1) .netErr = .httpErr 429 rms2 →
          (strEndpointLoop oracle tok email model false le (ep :: rest) st).1
              = .thrown .rateLimitedAfterRetry ∧
          (strEndpointLoop oracle tok email model false le (ep :: rest) st).2.nextFetch
              = st.nextFetch + 2 ∧
          (strEndpointLoop oracle tok email model false le (ep :: rest) st).2.calls
              = st.calls ++ [⟨ep, tok, true⟩, ⟨ep, tok, true⟩] ∧
          (strEndpointLoop oracle tok email model false le (ep :: rest) st).2.pool.limits.lookup
              (email, model)
            = some (st.now + jsOr rms DEFAULT_COOLDOWN_MS +
                jsOr rms2 (jsOr rms DEFAULT_COOLDOWN_MS))) ∧
        ((strEndpointLoop oracle tok email model true le (ep :: rest) st).1
            = .thrown .rateLimited ∧
          (strEndpointLoop oracle tok email model true le (ep :: rest) st).2.nextFetch
            = st.nextFetch + 1 ∧
          (strEndpointLoop oracle tok email model true le (ep :: rest) st).2.pool.limits.lookup
              (email, model) = some (st.now + jsOr rms DEFAULT_COOLDOWN_MS)))) ∧
    (∀ (model : String) (e : DispatchError) (st : DispatchState),
      isRateLimitError e = true → (classifyThrown model e st).1 = .nextAttempt) :=
  ⟨fun oracle tok email model ep rest le st =>
      msgEndpointLoop_429_spec oracle tok email model ep rest le st,
    fun oracle tok email model ep rest le st =>
      strEndpointLoop_429_spec oracle tok email model ep rest le st,
    fun model e st h => classifyThrown_rateLimit model e st h⟩

/-- Witness for C3: a 429 with a 60-second reset on a fresh state marks the
account limited until 60000 and throws the quota error after one call. -/
theorem c3_429_handling_witness :
    (msgEndpointLoop [.httpErr 429 (some 60000)] 0 "a" "m" false none
        ANTIGRAVITY_ENDPOINT_FALLBACKS (initState ["a"])).1
      = .thrown .quotaExhausted ∧
    (msgEndpointLoop [.httpErr 429 (some 60000)] 0 "a" "m" false none
        ANTIGRAVITY_ENDPOINT_FALLBACKS (initState ["a"])).2.nextFetch = 1 ∧
    (msgEndpointLoop [.httpErr 429 (some 60000)] 0 "a" "m" false none
        ANTIGRAVITY_ENDPOINT_FALLBACKS (initState ["a"])).2.pool.limits.lookup
        ("a", "m") = some 60000 := by
  obtain ⟨h1, h2, h3, -⟩ := (c3_429_handling.1 [.httpErr 429 (some 60000)] 0 "a" "m"
    "https://daily-cloudcode-pa.googleapis.com" ["https://cloudcode-pa.googleapis.com"]
    none (initState ["a"])).1 60000 (by decide) (by decide) false
  exact ⟨h1, h2, h3⟩

end Antigravity

namespace Antigravity

/-- State with a cached (stale) token and project for account `a` and a
fresh-id counter far above the cached ids, exposing whether a re-attempt
uses the cached or a freshly refreshed token. -/
def c8state : DispatchState :=
  { pool := { emails := ["a"], limits := [], sticky := [], rr := 0 }
    cache := { tokens := [("a", 7)], projects := [("a", 8)] }
    now := 0, nextFetch := 0, calls := [], sleeps := [], fresh := 100
    yielded := [], dispatches := [], attempts := 0 }

/-- C8 counterexample: after a 401 at the first endpoint, the re-attempt at
the next endpoint is issued with the same cached token (7), not with a fresh
one (fresh ids start at 100); the caches are invalidated, so only the next
attempt would obtain a fresh token. -/
theorem c8_401_counterexample :
    ((sendMessage false [.httpErr 401 none, .ok (.events [.message_stop])] "m"
        c8state).2.calls.map (fun c => c.token) = [7, 7]) ∧
    c8state.cache.tokens.lookup "a" = some 7 ∧
    (∀ t ∈ (sendMessage false [.httpErr 401 none, .ok (.events [.message_stop])] "m"
        c8state).2.calls.map (fun c => c.token), t < c8state.fresh) ∧
    ((sendMessage false [.httpErr 401 none, .ok (.events [.message_stop])] "m"
        c8state).2.cache.tokens.lookup "a" = none) := by
  exact ⟨by decide, by decide, by decide, by decide⟩

/-- C8 (amended): on a 401 both handlers invalidate the cached token and
project of the current account and continue with the next endpoint of the
same attempt reusing the same token variable; because the cache entry is
gone, the next attempt resolves a freshly issued token. -/
theorem c8_401_handling :
    (∀ (oracle : List FetchResult) (tok : Nat) (email model ep : String)
      (rest : List String) (ro : Bool) (le : Option DispatchError)
      (st : DispatchState) (rms : Option Nat),
      oracle.getD st.nextFetch .netErr = .httpErr 401 rms →
      msgEndpointLoop oracle tok email model ro le (ep :: rest) st
        = msgEndpointLoop oracle tok email model ro le rest
            { st with nextFetch := st.nextFetch + 1,
                      calls := st.calls ++ [⟨ep, tok, isThinkingModel (some model)⟩],
                      cache := clearProjectCache (clearTokenCache st.cache email) email }) ∧
    (∀ (oracle : List FetchResult) (tok : Nat) (email model ep : String)
      (rest : List String) (ro : Bool) (le : Option DispatchError)
      (st : DispatchState) (rms : Option Nat),
      oracle.getD st.nextFetch .netErr = .httpErr 401 rms →
      strEndpointLoop oracle tok email model ro le (ep :: rest) st
        = strEndpointLoop oracle tok email model ro le rest
            { st with nextFetch := st.nextFetch + 1,
                      calls := st.calls ++ [⟨ep, tok, true⟩],
                      cache := clearProjectCache (clearTokenCache st.cache email) email }) ∧
    (∀ (c : TokenCache) (email : String),
      (clearTokenCache c email).tokens.lookup email = none) ∧
    (∀ (c : TokenCache) (email : String) (fresh : Nat),
      c.tokens.lookup email = none →
      (getTokenForAccount c email fresh).1 = fresh ∧
      (getTokenForAccount c email fresh).2.2 = fresh + 1) :=
  ⟨fun oracle tok email model ep rest ro le st rms h =>
      msgEndpointLoop_401_step oracle tok email model ep rest ro le st rms h,
    fun oracle tok email model ep rest ro le st rms h =>
      strEndpointLoop_401_step oracle tok email model ep rest ro le st rms h,
    fun c email => clearTokenCache_lookup c email,
    fun c email fresh h => getTokenForAccount_fresh c email fresh h⟩

/-- Witness for C8 at a concrete 401 response. -/
theorem c8_401_handling_witness :
    msgEndpointLoop [.httpErr 401 none] 7 "a" "m" false none
        ANTIGRAVITY_ENDPOINT_FALLBACKS c8state
      = msgEndpointLoop [.httpErr 401 none] 7 "a" "m" false none
          ["https://cloudcode-pa.googleapis.com"]
          { c8state with nextFetch := 1,
                         calls := [⟨"https://daily-cloudcode-pa.googleapis.com", 7,
                           isThinkingModel (some "m")⟩],
                         cache := clearProjectCache (clearTokenCache c8state.cache "a") "a" } ∧
    (clearTokenCache c8state.cache "a").tokens.lookup "a" = none := by
  constructor
  · have h := c8_401_handling.1 [.httpErr 401 none] 7 "a" "m"
      "https://daily-cloudcode-pa.googleapis.com" ["https://cloudcode-pa.googleapis.com"]
      false none c8state none (by decide)
    simpa [c8state] using h
  · exact c8_401_handling.2.2.1 c8state.cache "a"

end Antigravity

namespace Antigravity

/-- C2: with a well-formed oracle (the spec-modelled adapter yields
well-formed event sequences), a streaming dispatch either yields nothing, or
completes successfully having yielded exactly one well-formed event batch —
all events tagged with the final upstream call, so no further upstream
attempt starts after the first yielded event, no retried stream is
interleaved, and the stream ends with `message_stop` or exactly one terminal
error event. -/
theorem c2_streaming_single_stream (fb : Bool) (oracle : List FetchResult)
    (model : String) (st : DispatchState)
    (hor : oracle.all fetchWF = true) (hy : st.yielded = []) :
    ((sendMessageStream fb oracle model st).2.yielded = [] ∧
      (∀ v, (sendMessageStream fb oracle model st).1 ≠ .ok v)) ∨
    (∃ v evs,
      (sendMessageStream fb oracle model st).1 = .ok v ∧
      wfStream evs = true ∧
      (sendMessageStream fb oracle model st).2.yielded
          = evs.map (fun e => (v, e)) ∧
      v + 1 = (sendMessageStream fb oracle model st).2.nextFetch) := by
  rcases sendMessageStream_yield fb oracle model st hor
    with ⟨v, evs, h1, h2, h3, h4⟩ | ⟨h1, h2⟩
  · right
    exact ⟨v, evs, h1, h2, by rw [h3, hy]; simp, h4⟩
  · left
    exact ⟨by rw [h1, hy], h2⟩

/-- Witness for C2: a single well-formed upstream stream is forwarded whole,
tagged with the only upstream call, and ends with `message_stop`. -/
theorem c2_streaming_single_stream_witness :
    ((sendMessageStream false [.ok (.events [.message_start, .message_stop])] "m"
        (initState ["a"])).2.yielded = [] ∧
      (∀ v, (sendMessageStream false [.ok (.events [.message_start, .message_stop])] "m"
        (initState ["a"])).1 ≠ .ok v)) ∨
    (∃ v evs,
      (sendMessageStream false [.ok (.events [.message_start, .message_stop])] "m"
        (initState ["a"])).1 = .ok v ∧
      wfStream evs = true ∧
      (sendMessageStream false [.ok (.events [.message_start, .message_stop])] "m"
        (initState ["a"])).2.yielded = evs.map (fun e => (v, e)) ∧
      v + 1 = (sendMessageStream false [.ok (.events [.message_start, .message_stop])] "m"
        (initState ["a"])).2.nextFetch) :=
  c2_streaming_single_stream false [.ok (.events [.message_start, .message_stop])]
    "m" (initState ["a"]) (by decide) (by decide)

/-- Oracle refuting the claimed two-retry cap for empty responses: an empty
stream, a 500 on the first refetch, another empty stream, then a payload.
The same endpoint is re-issued three times after the EmptyResponse. -/
def cx4oracle : List FetchResult :=
  [.ok .empty, .httpErr 500 none, .ok .empty,
   .ok (.events [.message_start, .message_stop])]

/-- C4 counterexample: after the adapter raises EmptyResponse, the handler
can re-issue the same endpoint three times (the 5xx path refetches once
more), exceeding the claimed cap of two retries. -/
theorem c4_empty_retry_counterexample :
    ((sendMessageStream false cx4oracle "m" (initState ["a"])).2.calls
      = List.replicate 4
          ⟨"https://daily-cloudcode-pa.googleapis.com", 0, true⟩) ∧
    ((sendMessageStream false cx4oracle "m" (initState ["a"])).2.sleeps
      = [500, 1000, 1000]) ∧
    ¬((sendMessageStream false cx4oracle "m" (initState ["a"])).2.calls.length
        ≤ 1 + MAX_EMPTY_RESPONSE_RETRIES) := by
  exact ⟨by decide, by decide, by decide⟩

/-- C4 (amended): when a 2xx body raises EmptyResponse, the handler retries
the same endpoint with exponential backoff of 500 ms then 1000 ms (a 5xx
refetch result inserts one extra same-endpoint re-issue after a further
one-second sleep); if the responses stay empty through both retries it
yields exactly once the synthetic single-block sequence
`message_start, content_block_start(text,0),
text_delta "[No response after retries - please try again]",
content_block_stop 0, message_delta end_turn, message_stop` and completes;
a body with payload is yielded as-is and the synthetic sequence is never
emitted for it. -/
theorem c4_empty_response_fallback :
    (∀ (oracle : List FetchResult) (tok : Nat) (email model ep : String)
      (rest : List String) (ro : Bool) (le : Option DispatchError)
      (st : DispatchState),
      oracle.getD st.nextFetch .netErr = .ok .empty →
      oracle.getD (st.nextFetch + 1) .netErr = .ok .empty →
      oracle.getD (st.nextFetch + 2) .netErr = .ok .empty →
      strEndpointLoop oracle tok email model ro le (ep :: rest) st
        = (.success (st.nextFetch + 2),
            { st with
              nextFetch := st.nextFetch + 3,
              calls := st.calls ++ [⟨ep, tok, true⟩, ⟨ep, tok, true⟩, ⟨ep, tok, true⟩],
              now := st.now + 1500,
              sleeps := st.sleeps ++ [500, 1000],
              yielded := st.yielded ++
                emitEmptyResponseFallback.map (fun e => (st.nextFetch + 2, e)) })) ∧
    (emitEmptyResponseFallback
      = [.message_start,
         .content_block_start 0 .text,
         .content_block_delta 0
           (.text_delta "[No response after retries - please try again]"),
         .content_block_stop 0,
         .message_delta "end_turn",
         .message_stop]) ∧
    (∀ (oracle : List FetchResult) (tok : Nat) (email model ep : String)
      (left curIdx : Nat) (evs : List CanonEvent) (st : DispatchState),
      emptyRetryLoop oracle tok email model ep left curIdx (.events evs) st
        = (.success curIdx, yieldEvents curIdx evs st)) :=
  ⟨fun oracle tok email model ep rest ro le st h0 h1 h2 =>
      strEndpointLoop_empty_exhaust oracle tok email model ep rest ro le st h0 h1 h2,
    rfl,
    fun oracle tok email model ep left curIdx evs st =>
      emptyRetryLoop_events oracle tok email model ep left curIdx evs st⟩

/-- Witness for C4 at a concrete all-empty oracle: three empty responses
produce exactly the synthetic sequence after sleeps of 500 and 1000 ms. -/
theorem c4_empty_response_fallback_witness :
    strEndpointLoop [.ok .empty, .ok .empty, .ok .empty] 0 "a" "m" false none
        (["d"] : List String) (initState ["a"])
      = (.success 2,
          { initState ["a"] with
            nextFetch := 3,
            calls := [⟨"d", 0, true⟩, ⟨"d", 0, true⟩, ⟨"d", 0, true⟩],
            now := 1500,
            sleeps := [500, 1000],
            yielded := emitEmptyResponseFallback.map (fun e => (2, e)) }) := by
  have h := c4_empty_response_fallback.1 [.ok .empty, .ok .empty, .ok .empty]
    0 "a" "m" "d" [] false none (initState ["a"])
    (by decide) (by decide) (by decide)
  simpa [initState] using h

end Antigravity

namespace Antigravity

/-- C10: `isThinkingModel` returns true exactly when the lowercased name
contains both `claude` and `thinking`, or contains `gemini` and either
contains `thinking` or its first `gemini-N` match has `N ≥ 3`; an absent
model name yields false, and a gemini-3 model without `thinking` in its name
is classified as thinking. -/
theorem c10_isThinkingModel :
    (∀ m, isThinkingModel m = isThinkingModelClaim m) ∧
    isThinkingModel none = false ∧
    (isThinkingModel (some "gemini-3-pro-high") = true ∧
      containsSub (lowerStr "gemini-3-pro-high".data) "thinking".data = false) ∧
    isThinkingModel (some "gemini-2.5-flash-lite") = false := by
  refine ⟨?_, by decide, by constructor <;> decide, by decide⟩
  intro m
  unfold isThinkingModel isThinkingModelClaim
  cases h1 : containsSub (lowerStr (m.getD "").data) "claude".data <;>
  cases h2 : containsSub (lowerStr (m.getD "").data) "thinking".data <;>
  cases h3 : containsSub (lowerStr (m.getD "").data) "gemini".data <;>
  simp [h1, h2, h3]

/-- C7: `buildCloudCodeRequest` always installs a user-role
`systemInstruction` with exactly one part whose text starts with the
identity preamble verbatim; caller-supplied system text follows the preamble
after a blank line, and without such text the part is the preamble exactly. -/
theorem c7_system_instruction (req : AnthropicRequest) (proj : String) :
    ∃ t, (buildCloudCodeRequest req proj).request.systemInstruction =
        some { role := "user", parts := [{ text := t }] } ∧
      (∃ suffix, t = ANTIGRAVITY_SYSTEM_INSTRUCTION ++ suffix) ∧
      (∀ s, req.system = some s → s ≠ "" →
        t = ANTIGRAVITY_SYSTEM_INSTRUCTION ++ "\n\n" ++ s) ∧
      ((req.system = none ∨ req.system = some "") →
        t = ANTIGRAVITY_SYSTEM_INSTRUCTION) := by
  refine ⟨_, rfl, ?_, ?_, ?_⟩
  · cases hsys : req.system with
    | none =>
      exact ⟨"", by simp [buildCloudCodeRequest, convertAnthropicToGoogle,
        existingSystemText, joinNl, hsys]⟩
    | some s =>
      by_cases hs : s = ""
      · exact ⟨"", by simp [buildCloudCodeRequest, convertAnthropicToGoogle,
          existingSystemText, joinNl, hsys, hs]⟩
      · refine ⟨"\n\n" ++ s, ?_⟩
        simp [buildCloudCodeRequest, convertAnthropicToGoogle, existingSystemText,
          joinNl, hsys, hs, String.append_assoc]
  · intro s hsys hs
    simp [buildCloudCodeRequest, convertAnthropicToGoogle, existingSystemText,
      joinNl, hsys, hs]
  · intro h
    rcases h with h | h <;>
      simp [buildCloudCodeRequest, convertAnthropicToGoogle, existingSystemText,
        joinNl, h]

/-- Witness for C7 at a concrete request with system text. -/
theorem c7_system_instruction_witness :
    ∃ t, (buildCloudCodeRequest
          { model := "claude-sonnet-4-5", system := some "Be brief." }
          "proj").request.systemInstruction
        = some { role := "user", parts := [{ text := t }] } ∧
      t = ANTIGRAVITY_SYSTEM_INSTRUCTION ++ "\n\n" ++ "Be brief." := by
  obtain ⟨t, h1, _h2, h3, _h4⟩ := c7_system_instruction
    { model := "claude-sonnet-4-5", system := some "Be brief." } "proj"
  exact ⟨t, h1, h3 "Be brief." rfl (by decide)⟩

end Antigravity
